import Mathlib

/-!
# EA DOGM204 LCD driver (`LCD_DOGM204/lcd_DOGM204_i2c.cpp`)

A shallow embedding of the `DOGM204I2C` class and of the I2C bus it drives.

* `char` is the unsigned 8-bit type of the ARM targets of mbed: a byte is a
  `Nat`, and `% 256` is written wherever an `int` expression is narrowed to
  `char`.
* The mbed `I2C` object is external to the driver.  It is modelled as an
  oracle: `ack t` is the value the bus call that makes transfer number `t`
  returns (0 = acknowledged), `rx t` is the byte a read at transfer number
  `t` leaves in the buffer.  Every transfer is appended to `log`, so the
  number of the next transfer is `log.length`.
* `error()` of mbed ends the program: an operation that calls it yields
  `Status.fatal` together with the bus as it was at that moment.
* The busy-wait loop has no bound in the source.  The model gives every
  loop a budget `fuel` of status reads; `none` means the budget ran out.
-/

namespace DOGM204

/-- One transfer on the bus: the address the call was given and the bytes
that went out (write) or came in (read). -/
inductive Xfer where
  | write (address : Nat) (data : List Nat)
  | read (address : Nat) (data : List Nat)
  deriving DecidableEq, Repr

/-- The bus the driver owns. -/
structure I2C where
  ack : Nat → Int
  rx : Nat → Nat
  log : List Xfer

/-- Model of `i2c.write(address, data, length)`: the bytes go out, the call
returns the bus result (0 on success). -/
def I2C.write (bus : I2C) (address : Nat) (data : List Nat) : Int × I2C :=
  (bus.ack bus.log.length, { bus with log := bus.log ++ [Xfer.write address data] })

/-- Model of `i2c.read(address, data, 1)`: one byte comes in. -/
def I2C.read (bus : I2C) (address : Nat) : Int × Nat × I2C :=
  let b := bus.rx bus.log.length % 256
  (bus.ack bus.log.length, b, { bus with log := bus.log ++ [Xfer.read address [b]] })

/-! ## Constants of `lcd_DOGM204_i2c.h` -/

def LCD_ADR : Nat := 0x78
def LCD_CLEAR : Nat := 0x00
def LCD_RTHOME : Nat := 0x02

def LCD_STATUS : Nat := 0x00
def LCD_DATA : Nat := 0x40
def LCD_BUSY : Nat := 0x80

def LCD_TOPVIEW : Nat := 0x05
def LCD_BOTVIEW : Nat := 0x06
def LCD_2LINE_MODE : Nat := 0x08
def LCD_4LINE_MODE : Nat := 0x09
def LCD_FONT_5DOT : Nat := 0x00
def LCD_FONT_6DOT : Nat := 0x04

def LCD_DISPLAY_ON : Nat := 0x04
def LCD_DISPLAY_OFF : Nat := 0x03
def LCD_CURSOR_ON : Nat := 0x02
def LCD_CURSOR_OFF : Nat := 0x05
def LCD_BLINK_ON : Nat := 0x01
def LCD_BLINK_OFF : Nat := 0x06

def LCD_HOME : Nat := 0x80
def LCD_LINE1 : Nat := 0x00
def LCD_LINE2 : Nat := 0x20
def LCD_LINE3 : Nat := 0x40
def LCD_LINE4 : Nat := 0x60

def Frequency_100KHz : Int := 100000
def Frequency_400KHz : Int := 400000

/-- The private state of a `DOGM204I2C` object. -/
structure DOGM204I2C where
  _baseAdr : Nat
  i2c : I2C

/-- How a `void` operation ends: it returns, or `error()` ended the program. -/
inductive Status where
  | ok
  | fatal (msg : String)
  deriving DecidableEq, Repr

/-- The constructor.  `error()` does not return, so an out-of-range `SA` or
`frequency` yields no object. -/
def DOGM204I2C.new (bus : I2C) (SA : Nat) (frequency : Int) : Except String DOGM204I2C :=
  if SA > 1 then
    Except.error "DOGM204I2C: SA is out of range, must be 0..1\n"
  else
    let _baseAdr := (LCD_ADR + (SA <<< 1)) % 256
    if frequency > Frequency_400KHz then
      Except.error "DOGM204I2C: I2C frequency out of range, must be less than 400 kHz\n"
    else
      Except.ok { _baseAdr := _baseAdr, i2c := bus }

/-- Method `lcd_i2c_write(cmd, dta)`: one two-byte write; `false` iff the bus call
returned non-zero. -/
def lcd_i2c_write (self : DOGM204I2C) (cmd dta : Nat) : Bool × DOGM204I2C :=
  let data := [cmd, dta]
  let r := self.i2c.write self._baseAdr data
  if r.1 ≠ 0 then (false, { self with i2c := r.2 })
  else (true, { self with i2c := r.2 })

/-- Method `lcd_i2c_read(cmd)`: a one-byte write of `cmd`, then a one-byte read.
Both bus results are dropped. -/
def lcd_i2c_read (self : DOGM204I2C) (cmd : Nat) : Nat × DOGM204I2C :=
  let w := self.i2c.write self._baseAdr [cmd]
  let r := w.2.read (self._baseAdr + 1)
  (r.2.1, { self with i2c := r.2.2 })

/-- The loop `while(lcd_i2c_read(LCD_STATUS) & LCD_BUSY);` with a budget of
`fuel` status reads. -/
def busy_wait : Nat → DOGM204I2C → Option DOGM204I2C
  | 0, _ => none
  | fuel + 1, self =>
    let r := lcd_i2c_read self LCD_STATUS
    if r.1 &&& LCD_BUSY ≠ 0 then busy_wait fuel r.2 else some r.2

/-- Method `lcd_write_cmd(data)`: wait, then write with control byte 0x80. -/
def lcd_write_cmd (fuel : Nat) (self : DOGM204I2C) (data : Nat) : Option (Bool × DOGM204I2C) :=
  match busy_wait fuel self with
  | none => none
  | some s => some (lcd_i2c_write s 0x80 data)

/-- Method `lcd_write_data(data)`: wait, then write with control byte 0x40. -/
def lcd_write_data (fuel : Nat) (self : DOGM204I2C) (data : Nat) : Option (Bool × DOGM204I2C) :=
  match busy_wait fuel self with
  | none => none
  | some s => some (lcd_i2c_write s 0x40 data)

/-- Method `display_set(mode)`: the command `0x08+mode`, the fatal error if it fails. -/
def display_set (fuel : Nat) (self : DOGM204I2C) (mode : Nat) : Option (Status × DOGM204I2C) :=
  match lcd_write_cmd fuel self ((0x08 + mode) % 256) with
  | none => none
  | some (r, s) =>
    if !r then some (Status.fatal "DOGM204I2C: Write command in lcd_display_set() failed!\n", s)
    else some (Status.ok, s)

/-- Method `set_pos(pos)`: the command `LCD_HOME+pos`, the fatal error if it fails. -/
def set_pos (fuel : Nat) (self : DOGM204I2C) (pos : Nat) : Option (Status × DOGM204I2C) :=
  match lcd_write_cmd fuel self ((LCD_HOME + pos) % 256) with
  | none => none
  | some (r, s) =>
    if !r then some (Status.fatal "DOGM204I2C: Write command in lcd_set_pos() failed!\n", s)
    else some (Status.ok, s)

/-- The local `char lcdpos = pos + 0x20 * line;` of `write_char`. -/
def lcdpos (line pos : Nat) : Nat := (pos + 0x20 * line) % 256

/-- Method `write_char(line, pos, ch)`: the command `lcdpos`, then, in the
`else` branch of its check, the data byte `ch`. -/
def write_char (fuel : Nat) (self : DOGM204I2C) (line pos ch : Nat) :
    Option (Status × DOGM204I2C) :=
  match lcd_write_cmd fuel self (lcdpos line pos) with
  | none => none
  | some (r, s) =>
    if !r then some (Status.fatal "DOGM204I2C: Write command in lcd_write_char() failed!\n", s)
    else
      match lcd_write_data fuel s ch with
      | none => none
      | some (r2, s2) =>
        if !r2 then
          some (Status.fatal "DOGM204I2C: Write data in lcd_write_char() failed!\n", s2)
        else some (Status.ok, s2)

/-- Method `write(s)`: the bytes of `s` up to the terminating zero (the end of the
list stands for the terminator too). -/
def write (fuel : Nat) (self : DOGM204I2C) : List Nat → Option (Status × DOGM204I2C)
  | [] => some (Status.ok, self)
  | c :: s =>
    if c = 0 then some (Status.ok, self)
    else
      match lcd_write_data fuel self c with
      | none => none
      | some (r, s1) =>
        if !r then some (Status.fatal "DOGM204I2C: Write data in lcd_write() failed!\n", s1)
        else write fuel s1 s

/-- Method `cls()`: both results are dropped. -/
def cls (fuel : Nat) (self : DOGM204I2C) : Option DOGM204I2C :=
  match lcd_write_cmd fuel self LCD_CLEAR with
  | none => none
  | some (_, s1) =>
    match lcd_write_cmd fuel s1 LCD_RTHOME with
    | none => none
    | some (_, s2) => some s2

/-- Statement `lcd_write_cmd(x);` followed by the rest of the function body:
the result of the write is dropped. -/
def andThen (r : Option (Bool × DOGM204I2C)) (k : DOGM204I2C → Option DOGM204I2C) :
    Option DOGM204I2C :=
  match r with
  | none => none
  | some (_, s) => k s

/-- Method `init()`: eleven commands, no result looked at. -/
def init (fuel : Nat) (self : DOGM204I2C) : Option DOGM204I2C :=
  andThen (lcd_write_cmd fuel self 0x3A) fun s1 =>
  andThen (lcd_write_cmd fuel s1 (LCD_4LINE_MODE ||| LCD_FONT_5DOT)) fun s2 =>
  andThen (lcd_write_cmd fuel s2 0x80) fun s3 =>
  andThen (lcd_write_cmd fuel s3 LCD_TOPVIEW) fun s4 =>
  andThen (lcd_write_cmd fuel s4 0x1E) fun s5 =>
  andThen (lcd_write_cmd fuel s5 0x39) fun s6 =>
  andThen (lcd_write_cmd fuel s6 0x1B) fun s7 =>
  andThen (lcd_write_cmd fuel s7 0x6E) fun s8 =>
  andThen (lcd_write_cmd fuel s8 0x57) fun s9 =>
  andThen (lcd_write_cmd fuel s9 0x7B) fun s10 =>
  andThen (lcd_write_cmd fuel s10 0x38) fun s11 =>
  some s11

/-! ## Reading a trace -/

/-- The payload of a two-byte write: a command or data frame. -/
def frame? : Xfer → Option (List Nat)
  | Xfer.write _ [c, d] => some [c, d]
  | _ => none

/-- The command and data frames of a log, in order. -/
def frames (log : List Xfer) : List (List Nat) := log.filterMap frame?

/-- The status-read transaction a driver at `self` makes when the next
transfer has number `t`, followed by the write of the frame `[ctrl, x]`. -/
def transaction (self : DOGM204I2C) (t ctrl x : Nat) : List Xfer :=
  [Xfer.write self._baseAdr [LCD_STATUS],
   Xfer.read (self._baseAdr + 1) [self.i2c.rx (t + 1) % 256],
   Xfer.write self._baseAdr [ctrl, x]]

/-- The transactions that send the bytes `xs` one after the other with the
control byte `ctrl`, each after a single status read, from transfer `t` on. -/
def transactions (self : DOGM204I2C) (t ctrl : Nat) : List Nat → List Xfer
  | [] => []
  | x :: xs => transaction self t ctrl x ++ transactions self (t + 3) ctrl xs

/-- The transfers of `n` status reads in a row, from transfer `t` on. -/
def statusReads (self : DOGM204I2C) (t : Nat) : Nat → List Xfer
  | 0 => []
  | n + 1 =>
    [Xfer.write self._baseAdr [LCD_STATUS],
     Xfer.read (self._baseAdr + 1) [self.i2c.rx (t + 1) % 256]] ++ statusReads self (t + 2) n

/-- The device reports not-busy at the read that is transfer number `t`. -/
def readyAt (bus : I2C) (t : Nat) : Prop := bus.rx t % 256 &&& LCD_BUSY = 0

instance (bus : I2C) (t : Nat) : Decidable (readyAt bus t) := by
  unfold readyAt; infer_instance

/-- The display never reports busy. -/
def AlwaysReady (bus : I2C) : Prop := ∀ t, readyAt bus t

/-- The driver `self` after the transfers `xs` went over its bus. -/
def logged (self : DOGM204I2C) (xs : List Xfer) : DOGM204I2C :=
  { self with i2c := { self.i2c with log := self.i2c.log ++ xs } }

/-- A bus on which nothing fails and the display is never busy. -/
def quietBus : I2C := { ack := fun _ => 0, rx := fun _ => 0, log := [] }

/-- A bus whose writes are never acknowledged; the display is never busy. -/
def deafBus : I2C := { ack := fun _ => 1, rx := fun _ => 0, log := [] }

/-- The driver at address 0x78 on the quiet bus. -/
def quietDev : DOGM204I2C := { _baseAdr := 0x78, i2c := quietBus }

/-- The driver at address 0x78 on the deaf bus. -/
def deafDev : DOGM204I2C := { _baseAdr := 0x78, i2c := deafBus }

/-- A bus on which exactly transfer number `n` is not acknowledged; the
display is never busy. -/
def nackAt (n : Nat) : I2C :=
  { ack := fun t => if t = n then 1 else 0, rx := fun _ => 0, log := [] }

/-- The driver at address 0x78 on the bus `nackAt n`. -/
def nackDev (n : Nat) : DOGM204I2C := { _baseAdr := 0x78, i2c := nackAt n }

/-- The commands `xs` sent one after the other by `lcd_write_cmd`, every
result dropped: the shape of the bodies of `init` and `cls`. -/
def cmdSeq (fuel : Nat) (self : DOGM204I2C) : List Nat → Option DOGM204I2C
  | [] => some self
  | x :: xs => andThen (lcd_write_cmd fuel self x) fun s => cmdSeq fuel s xs

/-- The reading C6 gives of `write_char`: `set_pos(col + 0x20 * line)`, then
`lcd_write_data(ch)` unless `set_pos` ended the program. -/
def set_pos_then_data (fuel : Nat) (self : DOGM204I2C) (line col ch : Nat) :
    Option DOGM204I2C :=
  match set_pos fuel self ((col + 0x20 * line) % 256) with
  | none => none
  | some (Status.fatal _, s) => some s
  | some (Status.ok, s) =>
    match lcd_write_data fuel s ch with
    | none => none
    | some (_, s2) => some s2

/-! ## Programs over the public operations -/

/-- A call of one of the public operations. -/
inductive Op where
  | init
  | cls
  | display_set (mode : Nat)
  | set_pos (pos : Nat)
  | write_char (line pos ch : Nat)
  | write (s : List Nat)
  deriving DecidableEq, Repr

/-- One call on the driver.  The bodies of `init` and `cls` have no call of
`error()`: when they return, they return normally. -/
def Op.run (fuel : Nat) (self : DOGM204I2C) : Op → Option (Status × DOGM204I2C)
  | Op.init => (DOGM204.init fuel self).map fun s => (Status.ok, s)
  | Op.cls => (DOGM204.cls fuel self).map fun s => (Status.ok, s)
  | Op.display_set mode => DOGM204.display_set fuel self mode
  | Op.set_pos pos => DOGM204.set_pos fuel self pos
  | Op.write_char line pos ch => DOGM204.write_char fuel self line pos ch
  | Op.write s => DOGM204.write fuel self s

/-- A program that calls public operations one after the other, as `main`
does; a fatal error ends it. -/
def runOps (fuel : Nat) (self : DOGM204I2C) : List Op → Option (Status × DOGM204I2C)
  | [] => some (Status.ok, self)
  | op :: ops =>
    match op.run fuel self with
    | none => none
    | some (Status.ok, s) => runOps fuel s ops
    | some (Status.fatal msg, s) => some (Status.fatal msg, s)

/-- The number of reads in a log: one per status-read transaction. -/
def statusReadCount : List Xfer → Nat
  | [] => 0
  | Xfer.read _ _ :: l => statusReadCount l + 1
  | Xfer.write _ _ :: l => statusReadCount l

/-- The transfer numbers of the command and data writes in `l` that the bus
answers with an error, when the first transfer of `l` has number `t`. -/
def failedWrites (ack : Nat → Int) (t : Nat) : List Xfer → List Nat
  | [] => []
  | x :: l =>
    (if (frame? x).isSome ∧ ack t ≠ 0 then [t] else []) ++ failedWrites ack (t + 1) l

/-- The outcome `r` of an operation started at `self`: it ended, with the
fatal error iff one of the command or data writes it made was refused, and
every refused one is the last transfer it made. -/
def StopsAtFailedWrite (self : DOGM204I2C) (r : Option (Status × DOGM204I2C)) : Prop :=
  ∃ st new, r = some (st, logged self new) ∧
    ((∃ msg, st = Status.fatal msg) ↔
      failedWrites self.i2c.ack self.i2c.log.length new ≠ []) ∧
    ∀ t ∈ failedWrites self.i2c.ack self.i2c.log.length new,
      t + 1 = self.i2c.log.length + new.length

/-- The busy gate on a trace: every command or data write stands right
after a status read (the request byte written, one byte read) whose byte has
bit 7 clear. -/
def Gated (log : List Xfer) : Prop :=
  ∀ pre post a c d, log = pre ++ Xfer.write a [c, d] :: post →
    ∃ pre' a0 a1 b,
      pre = pre' ++ [Xfer.write a0 [LCD_STATUS], Xfer.read a1 [b]] ∧ b &&& LCD_BUSY = 0

/-- Every write of the log goes to `adr`, every read to `adr + 1`. -/
def TargetsDevice (adr : Nat) (log : List Xfer) : Prop :=
  ∀ x ∈ log, (∀ a d, x = Xfer.write a d → a = adr) ∧ (∀ a d, x = Xfer.read a d → a = adr + 1)

/-- The shape of what the operations put on the bus of a driver at `adr`:
status reads, and frames that each follow a status read of a not-busy byte. -/
inductive Polled (adr : Nat) : List Xfer → Prop
  | nil : Polled adr []
  | poll (b : Nat) (l : List Xfer) : Polled adr l →
      Polled adr (Xfer.write adr [LCD_STATUS] :: Xfer.read (adr + 1) [b] :: l)
  | frame (b c d : Nat) (l : List Xfer) : b &&& LCD_BUSY = 0 → Polled adr l →
      Polled adr (Xfer.write adr [LCD_STATUS] :: Xfer.read (adr + 1) [b]
        :: Xfer.write adr [c, d] :: l)

/-- What the driver asked of the bus in a transfer: a read without the bytes
that came in. -/
def request : Xfer → Xfer
  | Xfer.write a d => Xfer.write a d
  | Xfer.read a d => Xfer.read a (d.map fun _ => 0)

/-- The driver `self` in front of a display that answers the status reads
with `rx` instead. -/
def withRx (self : DOGM204I2C) (rx : Nat → Nat) : DOGM204I2C :=
  { self with i2c := { self.i2c with rx := rx } }

/-- The driver `self` on a bus that answers the transfers with `ack` instead. -/
def withAck (self : DOGM204I2C) (ack : Nat → Int) : DOGM204I2C :=
  { self with i2c := { self.i2c with ack := ack } }

/-- A display that is busy at the first `n` status reads and ready from then
on, with the status bytes 0x80 and 0x00; the bus acknowledges everything. -/
def busyFor (n : Nat) : I2C :=
  { ack := fun _ => 0, rx := fun t => if t < 2 * n then 0x80 else 0x00, log := [] }

/-- The same display with other status bytes, 0xFF while busy and 0x7F when
ready. -/
def busyForAlt (n : Nat) : I2C :=
  { ack := fun _ => 0, rx := fun t => if t < 2 * n then 0xFF else 0x7F, log := [] }

/-- The driver `s` is the driver `self` after transfers of the shape `Polled`. -/
def Reaches (self s : DOGM204I2C) : Prop :=
  ∃ new, s = logged self new ∧ Polled self._baseAdr new

/-- The driver at address 0x7A in front of the display `busyFor n`. -/
def busyDev (n : Nat) : DOGM204I2C := { _baseAdr := 0x7A, i2c := busyFor n }

/-! ## Lemmas on the transfer layer -/

@[simp] theorem logged_baseAdr (self : DOGM204I2C) (xs : List Xfer) :
    (logged self xs)._baseAdr = self._baseAdr := rfl

@[simp] theorem logged_ack (self : DOGM204I2C) (xs : List Xfer) :
    (logged self xs).i2c.ack = self.i2c.ack := rfl

@[simp] theorem logged_rx (self : DOGM204I2C) (xs : List Xfer) :
    (logged self xs).i2c.rx = self.i2c.rx := rfl

@[simp] theorem logged_log (self : DOGM204I2C) (xs : List Xfer) :
    (logged self xs).i2c.log = self.i2c.log ++ xs := rfl

@[simp] theorem logged_logged (self : DOGM204I2C) (xs ys : List Xfer) :
    logged (logged self xs) ys = logged self (xs ++ ys) := by
  simp [logged, List.append_assoc]

@[simp] theorem logged_nil (self : DOGM204I2C) : logged self [] = self := by
  simp [logged]

@[simp] theorem transaction_logged (self : DOGM204I2C) (xs : List Xfer) (t ctrl x : Nat) :
    transaction (logged self xs) t ctrl x = transaction self t ctrl x := rfl

@[simp] theorem transactions_logged (self : DOGM204I2C) (ys : List Xfer) (ctrl : Nat)
    (xs : List Nat) (t : Nat) :
    transactions (logged self ys) t ctrl xs = transactions self t ctrl xs := by
  induction xs generalizing t with
  | nil => rfl
  | cons x xs ih => simp [transactions, ih]

@[simp] theorem statusReads_logged (self : DOGM204I2C) (ys : List Xfer) (n t : Nat) :
    statusReads (logged self ys) t n = statusReads self t n := by
  induction n generalizing t with
  | zero => rfl
  | succ n ih => simp [statusReads, ih]

theorem frames_append (a b : List Xfer) : frames (a ++ b) = frames a ++ frames b := by
  simp [frames, List.filterMap_append]

theorem frames_transaction (self : DOGM204I2C) (t ctrl x : Nat) :
    frames (transaction self t ctrl x) = [[ctrl, x]] := by
  simp [frames, transaction, frame?, List.filterMap_cons]

theorem frames_transactions (self : DOGM204I2C) (ctrl : Nat) (xs : List Nat) (t : Nat) :
    frames (transactions self t ctrl xs) = xs.map fun x => [ctrl, x] := by
  induction xs generalizing t with
  | nil => rfl
  | cons x xs ih => simp [transactions, frames_append, frames_transaction, ih]

theorem frames_statusReads (self : DOGM204I2C) (n t : Nat) :
    frames (statusReads self t n) = [] := by
  induction n generalizing t with
  | zero => rfl
  | succ n ih =>
    have h := ih (t + 2)
    simp only [statusReads, frames_append, h]
    simp [frames, frame?, List.filterMap_cons]

theorem length_transactions (self : DOGM204I2C) (ctrl : Nat) (xs : List Nat) (t : Nat) :
    (transactions self t ctrl xs).length = 3 * xs.length := by
  induction xs generalizing t with
  | nil => rfl
  | cons x xs ih => simp [transactions, transaction, ih]; omega

theorem lcd_i2c_read_eq (self : DOGM204I2C) (cmd : Nat) :
    lcd_i2c_read self cmd =
      (self.i2c.rx (self.i2c.log.length + 1) % 256,
       logged self [Xfer.write self._baseAdr [cmd],
         Xfer.read (self._baseAdr + 1) [self.i2c.rx (self.i2c.log.length + 1) % 256]]) := by
  simp [lcd_i2c_read, I2C.write, I2C.read, logged]

theorem lcd_i2c_write_eq (self : DOGM204I2C) (cmd dta : Nat) :
    lcd_i2c_write self cmd dta =
      (decide (self.i2c.ack self.i2c.log.length = 0),
       logged self [Xfer.write self._baseAdr [cmd, dta]]) := by
  by_cases h : self.i2c.ack self.i2c.log.length = 0 <;>
    simp [lcd_i2c_write, I2C.write, logged, h]

/-- The wait loop when the first not-busy status byte is the one of poll
number `n` (0-based): `n + 1` status reads, then the loop is left. -/
theorem busy_wait_polls (n : Nat) : ∀ (fuel : Nat) (self : DOGM204I2C), n < fuel →
    (∀ k, k < n → ¬ readyAt self.i2c (self.i2c.log.length + 2 * k + 1)) →
    readyAt self.i2c (self.i2c.log.length + 2 * n + 1) →
    busy_wait fuel self = some (logged self (statusReads self self.i2c.log.length (n + 1))) := by
  induction n with
  | zero =>
    intro fuel self hf _ hr
    obtain ⟨f, rfl⟩ : ∃ f, fuel = f + 1 := ⟨fuel - 1, by omega⟩
    have hr0 : self.i2c.rx (self.i2c.log.length + 1) % 256 &&& LCD_BUSY = 0 := by
      simpa [readyAt] using hr
    simp [busy_wait, lcd_i2c_read_eq, hr0, statusReads]
  | succ n ih =>
    intro fuel self hf hb hr
    obtain ⟨f, rfl⟩ : ∃ f, fuel = f + 1 := ⟨fuel - 1, by omega⟩
    have hb0 : ¬ (self.i2c.rx (self.i2c.log.length + 1) % 256 &&& LCD_BUSY = 0) := by
      simpa [readyAt] using hb 0 (by omega)
    have hstep := ih f
      (logged self [Xfer.write self._baseAdr [LCD_STATUS],
        Xfer.read (self._baseAdr + 1) [self.i2c.rx (self.i2c.log.length + 1) % 256]])
      (by omega)
      (by
        intro k hk
        have := hb (k + 1) (by omega)
        simpa [show self.i2c.log.length + 2 + 2 * k + 1
          = self.i2c.log.length + 2 * (k + 1) + 1 by omega] using this)
      (by
        simpa [show self.i2c.log.length + 2 + 2 * n + 1
          = self.i2c.log.length + 2 * (n + 1) + 1 by omega] using hr)
    have hgo : busy_wait (f + 1) self = busy_wait f
        (logged self [Xfer.write self._baseAdr [LCD_STATUS],
          Xfer.read (self._baseAdr + 1) [self.i2c.rx (self.i2c.log.length + 1) % 256]]) := by
      rw [busy_wait]
      simp only [lcd_i2c_read_eq]
      exact if_pos hb0
    rw [hgo, hstep]
    simp [statusReads]

theorem length_statusReads (self : DOGM204I2C) (n t : Nat) :
    (statusReads self t n).length = 2 * n := by
  induction n generalizing t with
  | zero => rfl
  | succ n ih => simp [statusReads, ih]; omega

theorem transaction_eq (self : DOGM204I2C) (t ctrl x : Nat) :
    transaction self t ctrl x = statusReads self t 1 ++ [Xfer.write self._baseAdr [ctrl, x]] := by
  simp [transaction, statusReads]

/-- A command or data write whose wait loop ends at poll number `n`. -/
theorem write_after_polls (ctrl x n fuel : Nat) (self : DOGM204I2C) (hf : n < fuel)
    (hb : ∀ k, k < n → ¬ readyAt self.i2c (self.i2c.log.length + 2 * k + 1))
    (hr : readyAt self.i2c (self.i2c.log.length + 2 * n + 1)) :
    (match busy_wait fuel self with
      | none => none
      | some s => some (lcd_i2c_write s ctrl x)) =
      some (decide (self.i2c.ack (self.i2c.log.length + 2 * (n + 1)) = 0),
        logged self (statusReads self self.i2c.log.length (n + 1)
          ++ [Xfer.write self._baseAdr [ctrl, x]])) := by
  rw [busy_wait_polls n fuel self hf hb hr]
  simp [lcd_i2c_write_eq, length_statusReads]

theorem lcd_write_cmd_polls (x n fuel : Nat) (self : DOGM204I2C) (hf : n < fuel)
    (hb : ∀ k, k < n → ¬ readyAt self.i2c (self.i2c.log.length + 2 * k + 1))
    (hr : readyAt self.i2c (self.i2c.log.length + 2 * n + 1)) :
    lcd_write_cmd fuel self x =
      some (decide (self.i2c.ack (self.i2c.log.length + 2 * (n + 1)) = 0),
        logged self (statusReads self self.i2c.log.length (n + 1)
          ++ [Xfer.write self._baseAdr [0x80, x]])) :=
  write_after_polls 0x80 x n fuel self hf hb hr

theorem lcd_write_data_polls (x n fuel : Nat) (self : DOGM204I2C) (hf : n < fuel)
    (hb : ∀ k, k < n → ¬ readyAt self.i2c (self.i2c.log.length + 2 * k + 1))
    (hr : readyAt self.i2c (self.i2c.log.length + 2 * n + 1)) :
    lcd_write_data fuel self x =
      some (decide (self.i2c.ack (self.i2c.log.length + 2 * (n + 1)) = 0),
        logged self (statusReads self self.i2c.log.length (n + 1)
          ++ [Xfer.write self._baseAdr [0x40, x]])) :=
  write_after_polls 0x40 x n fuel self hf hb hr

/-- A command write when the first poll finds the display ready. -/
theorem lcd_write_cmd_ready (x fuel : Nat) (self : DOGM204I2C) (hf : 0 < fuel)
    (hr : readyAt self.i2c (self.i2c.log.length + 1)) :
    lcd_write_cmd fuel self x =
      some (decide (self.i2c.ack (self.i2c.log.length + 2) = 0),
        logged self (transaction self self.i2c.log.length 0x80 x)) := by
  rw [lcd_write_cmd_polls x 0 fuel self hf (fun k hk => absurd hk (Nat.not_lt_zero k)) hr,
    transaction_eq]

/-- A data write when the first poll finds the display ready. -/
theorem lcd_write_data_ready (x fuel : Nat) (self : DOGM204I2C) (hf : 0 < fuel)
    (hr : readyAt self.i2c (self.i2c.log.length + 1)) :
    lcd_write_data fuel self x =
      some (decide (self.i2c.ack (self.i2c.log.length + 2) = 0),
        logged self (transaction self self.i2c.log.length 0x40 x)) := by
  rw [lcd_write_data_polls x 0 fuel self hf (fun k hk => absurd hk (Nat.not_lt_zero k)) hr,
    transaction_eq]

theorem alwaysReady_logged (self : DOGM204I2C) (xs : List Xfer) (h : AlwaysReady self.i2c) :
    AlwaysReady (logged self xs).i2c := fun t => h t

/-- On a display that is never busy a run of commands is a run of
transactions, whatever the bus answers to the writes. -/
theorem cmdSeq_ready (fuel : Nat) (hf : 0 < fuel) (xs : List Nat) :
    ∀ self : DOGM204I2C, AlwaysReady self.i2c →
      cmdSeq fuel self xs =
        some (logged self (transactions self self.i2c.log.length 0x80 xs)) := by
  induction xs with
  | nil => intro self _; simp [cmdSeq, transactions]
  | cons x xs ih =>
    intro self h
    rw [cmdSeq, lcd_write_cmd_ready x fuel self hf (h _)]
    simp only [andThen]
    rw [ih _ (alwaysReady_logged self _ h)]
    simp [transactions, transaction]

theorem init_eq_cmdSeq (fuel : Nat) (self : DOGM204I2C) :
    init fuel self =
      cmdSeq fuel self [0x3A, 0x09, 0x80, 0x05, 0x1E, 0x39, 0x1B, 0x6E, 0x57, 0x7B, 0x38] := rfl

theorem cls_eq_cmdSeq (fuel : Nat) (self : DOGM204I2C) :
    cls fuel self = cmdSeq fuel self [0x00, 0x02] := by
  unfold cls
  simp only [cmdSeq, andThen, LCD_CLEAR, LCD_RTHOME]

theorem quietBus_ready : AlwaysReady quietBus := fun _ => by
  simp [readyAt, quietBus]

theorem deafBus_ready : AlwaysReady deafBus := fun _ => by
  simp [readyAt, deafBus]

theorem nackAt_ready (n : Nat) : AlwaysReady (nackAt n) := fun _ => by
  simp [readyAt, nackAt]

theorem write_cons_step (fuel : Nat) (hf : 0 < fuel) (self : DOGM204I2C)
    (h : AlwaysReady self.i2c) (c : Nat) (s : List Nat) (hc : c ≠ 0) :
    write fuel self (c :: s) =
      if self.i2c.ack (self.i2c.log.length + 2) = 0 then
        write fuel (logged self (transaction self self.i2c.log.length 0x40 c)) s
      else
        some (Status.fatal "DOGM204I2C: Write data in lcd_write() failed!\n",
          logged self (transaction self self.i2c.log.length 0x40 c)) := by
  rw [write, if_neg hc, lcd_write_data_ready c fuel self hf (h _)]
  by_cases ha : self.i2c.ack (self.i2c.log.length + 2) = 0 <;> simp [ha]

/-- Every data write acknowledged: the whole string goes out. -/
theorem write_all_acked (fuel : Nat) (hf : 0 < fuel) (s : List Nat) :
    ∀ self : DOGM204I2C, AlwaysReady self.i2c → (∀ c ∈ s, c ≠ 0) →
      (∀ j, j < s.length → self.i2c.ack (self.i2c.log.length + 3 * j + 2) = 0) →
      write fuel self s =
        some (Status.ok, logged self (transactions self self.i2c.log.length 0x40 s)) := by
  induction s with
  | nil => intro self _ _ _; simp [write, transactions]
  | cons c s ih =>
    intro self h hs ha
    have h0 : self.i2c.ack (self.i2c.log.length + 2) = 0 := by
      simpa using ha 0 (by simp)
    rw [write_cons_step fuel hf self h c s (hs c (by simp)), if_pos h0,
      ih _ (alwaysReady_logged self _ h) (fun d hd => hs d (by simp [hd]))]
    · simp [transactions, transaction]
    · intro j hj
      have := ha (j + 1) (by simpa using hj)
      simpa [transaction, show self.i2c.log.length + 3 + 3 * j + 2
        = self.i2c.log.length + 3 * (j + 1) + 2 by omega] using this

/-- The data write number `k` (0-based) is the first that is not
acknowledged: the string is cut after that byte. -/
theorem write_first_nack (fuel : Nat) (hf : 0 < fuel) (s : List Nat) :
    ∀ (self : DOGM204I2C) (k : Nat), AlwaysReady self.i2c → (∀ c ∈ s, c ≠ 0) →
      k < s.length →
      (∀ j, j < k → self.i2c.ack (self.i2c.log.length + 3 * j + 2) = 0) →
      self.i2c.ack (self.i2c.log.length + 3 * k + 2) ≠ 0 →
      write fuel self s =
        some (Status.fatal "DOGM204I2C: Write data in lcd_write() failed!\n",
          logged self (transactions self self.i2c.log.length 0x40 (s.take (k + 1)))) := by
  induction s with
  | nil => intro self k _ _ hk; simp at hk
  | cons c s ih =>
    intro self k h hs hk ha hn
    cases k with
    | zero =>
      have hn0 : ¬ self.i2c.ack (self.i2c.log.length + 2) = 0 := by simpa using hn
      rw [write_cons_step fuel hf self h c s (hs c (by simp)), if_neg hn0]
      simp [transactions]
    | succ k =>
      have h0 : self.i2c.ack (self.i2c.log.length + 2) = 0 := by
        simpa using ha 0 (by omega)
      rw [write_cons_step fuel hf self h c s (hs c (by simp)), if_pos h0,
        ih _ k (alwaysReady_logged self _ h) (fun d hd => hs d (by simp [hd]))
          (by simpa using hk)]
      · simp [transactions, transaction]
      · intro j hj
        have := ha (j + 1) (by omega)
        simpa [transaction, show self.i2c.log.length + 3 + 3 * j + 2
          = self.i2c.log.length + 3 * (j + 1) + 2 by omega] using this
      · simpa [transaction, show self.i2c.log.length + 3 + 3 * k + 2
          = self.i2c.log.length + 3 * (k + 1) + 2 by omega] using hn

theorem add8_eq_or : ∀ mode, mode < 256 → mode &&& 0x08 = 0 →
    (0x08 + mode) % 256 = 0x08 ||| mode := by
  set_option maxRecDepth 100000 in decide

theorem home_add_eq_or : ∀ pos, pos < 0x80 →
    (0x80 + pos) % 256 = 0x80 ||| pos ∧ 0x80 + pos < 256 := by
  decide

/-- The result `lcd_write_cmd` hands to a caller that raises the fatal error
`msg` when it is `false`. -/
theorem checked_cmd_polls (msg : String) (x n fuel : Nat) (self : DOGM204I2C) (hf : n < fuel)
    (hb : ∀ k, k < n → ¬ readyAt self.i2c (self.i2c.log.length + 2 * k + 1))
    (hr : readyAt self.i2c (self.i2c.log.length + 2 * n + 1)) :
    (match lcd_write_cmd fuel self x with
      | none => none
      | some (r, s) => if !r then some (Status.fatal msg, s) else some (Status.ok, s)) =
      some (if self.i2c.ack (self.i2c.log.length + 2 * (n + 1)) = 0 then Status.ok
          else Status.fatal msg,
        logged self (statusReads self self.i2c.log.length (n + 1)
          ++ [Xfer.write self._baseAdr [0x80, x]])) := by
  rw [lcd_write_cmd_polls x n fuel self hf hb hr]
  by_cases ha : self.i2c.ack (self.i2c.log.length + 2 * (n + 1)) = 0 <;> simp [ha]

theorem frames_after_polls (self : DOGM204I2C) (n ctrl x : Nat) :
    frames (logged self (statusReads self self.i2c.log.length (n + 1)
      ++ [Xfer.write self._baseAdr [ctrl, x]])).i2c.log =
      frames self.i2c.log ++ [[ctrl, x]] := by
  rw [logged_log, frames_append, frames_append, frames_statusReads]
  simp [frames, frame?, List.filterMap_cons]

theorem statusReadCount_append (a b : List Xfer) :
    statusReadCount (a ++ b) = statusReadCount a + statusReadCount b := by
  induction a with
  | nil => simp [statusReadCount]
  | cons x a ih =>
    cases x with
    | write _ _ => simpa [statusReadCount] using ih
    | read _ _ =>
      rw [List.cons_append, statusReadCount, statusReadCount, ih]
      omega

theorem statusReadCount_transactions (self : DOGM204I2C) (ctrl : Nat) (xs : List Nat) (t : Nat) :
    statusReadCount (transactions self t ctrl xs) = xs.length := by
  induction xs generalizing t with
  | nil => rfl
  | cons x xs ih =>
    simp [transactions, transaction, statusReadCount, ih]

theorem run_init_ready (fuel : Nat) (hf : 0 < fuel) (self : DOGM204I2C)
    (h : AlwaysReady self.i2c) :
    Op.run fuel self Op.init = some (Status.ok, logged self
      (transactions self self.i2c.log.length 0x80
        [0x3A, 0x09, 0x80, 0x05, 0x1E, 0x39, 0x1B, 0x6E, 0x57, 0x7B, 0x38])) := by
  simp only [Op.run, init_eq_cmdSeq, cmdSeq_ready fuel hf _ self h, Option.map_some']

theorem run_cls_ready (fuel : Nat) (hf : 0 < fuel) (self : DOGM204I2C)
    (h : AlwaysReady self.i2c) :
    Op.run fuel self Op.cls = some (Status.ok, logged self
      (transactions self self.i2c.log.length 0x80 [0x00, 0x02])) := by
  simp only [Op.run, cls_eq_cmdSeq, cmdSeq_ready fuel hf _ self h, Option.map_some']

theorem set_pos_acked (fuel : Nat) (hf : 0 < fuel) (self : DOGM204I2C) (pos : Nat)
    (hr : readyAt self.i2c (self.i2c.log.length + 1))
    (ha : self.i2c.ack (self.i2c.log.length + 2) = 0) :
    set_pos fuel self pos = some (Status.ok, logged self
      (transaction self self.i2c.log.length 0x80 ((LCD_HOME + pos) % 256))) := by
  unfold set_pos
  rw [lcd_write_cmd_ready _ fuel self hf hr]
  simp [ha]

@[simp] theorem withAck_baseAdr (self : DOGM204I2C) (ack : Nat → Int) :
    (withAck self ack)._baseAdr = self._baseAdr := rfl

@[simp] theorem withAck_rx (self : DOGM204I2C) (ack : Nat → Int) :
    (withAck self ack).i2c.rx = self.i2c.rx := rfl

@[simp] theorem withAck_log (self : DOGM204I2C) (ack : Nat → Int) :
    (withAck self ack).i2c.log = self.i2c.log := rfl

@[simp] theorem withAck_ack (self : DOGM204I2C) (ack : Nat → Int) :
    (withAck self ack).i2c.ack = ack := rfl

@[simp] theorem statusReads_withAck (self : DOGM204I2C) (ack : Nat → Int) (n t : Nat) :
    statusReads (withAck self ack) t n = statusReads self t n := by
  induction n generalizing t with
  | zero => rfl
  | succ n ih => simp [statusReads, ih]

@[simp] theorem transactions_withAck (self : DOGM204I2C) (ack : Nat → Int) (ctrl : Nat)
    (xs : List Nat) (t : Nat) :
    transactions (withAck self ack) t ctrl xs = transactions self t ctrl xs := by
  induction xs generalizing t with
  | nil => rfl
  | cons x xs ih => simp [transactions, transaction, ih]

theorem failedWrites_append (ack : Nat → Int) (a b : List Xfer) (t : Nat) :
    failedWrites ack t (a ++ b) = failedWrites ack t a ++ failedWrites ack (t + a.length) b := by
  induction a generalizing t with
  | nil => simp [failedWrites]
  | cons x a ih =>
    rw [List.cons_append, failedWrites, failedWrites, ih (t + 1), List.length_cons,
      List.append_assoc, show t + 1 + a.length = t + (a.length + 1) by omega]

theorem failedWrites_transaction (ack : Nat → Int) (self : DOGM204I2C) (t ctrl x : Nat) :
    failedWrites ack t (transaction self t ctrl x) = if ack (t + 2) ≠ 0 then [t + 2] else [] := by
  simp [failedWrites, transaction, frame?]

theorem stops_nil (self : DOGM204I2C) : StopsAtFailedWrite self (some (Status.ok, self)) := by
  refine ⟨Status.ok, [], by simp, ?_, ?_⟩
  · simp [failedWrites]
  · simp [failedWrites]

theorem stops_single_fail (self : DOGM204I2C) (ctrl x : Nat) (msg : String)
    (h : self.i2c.ack (self.i2c.log.length + 2) ≠ 0) :
    StopsAtFailedWrite self
      (some (Status.fatal msg, logged self (transaction self self.i2c.log.length ctrl x))) := by
  refine ⟨Status.fatal msg, _, rfl, ?_, ?_⟩
  · simp [failedWrites_transaction, h]
  · rw [failedWrites_transaction, if_pos h]
    simp [transaction]

theorem stops_after (self : DOGM204I2C) (new1 : List Xfer)
    (r : Option (Status × DOGM204I2C))
    (h1 : failedWrites self.i2c.ack self.i2c.log.length new1 = [])
    (h2 : StopsAtFailedWrite (logged self new1) r) : StopsAtFailedWrite self r := by
  obtain ⟨st, new2, rfl, hiff, hlast⟩ := h2
  simp only [logged_ack, logged_log, List.length_append] at hiff hlast
  refine ⟨st, new1 ++ new2, by simp, ?_, ?_⟩
  · rw [failedWrites_append, h1, List.nil_append]
    exact hiff
  · rw [failedWrites_append, h1, List.nil_append, List.length_append]
    intro t ht
    have := hlast t ht
    omega

/-- A checked command or data write: the caller raises `msg` when the one
write is refused. -/
theorem stops_checked (self : DOGM204I2C) (ctrl x : Nat) (msg : String) :
    StopsAtFailedWrite self
      (some (if self.i2c.ack (self.i2c.log.length + 2) = 0 then Status.ok
          else Status.fatal msg,
        logged self (transaction self self.i2c.log.length ctrl x))) := by
  by_cases h : self.i2c.ack (self.i2c.log.length + 2) = 0
  · rw [if_pos h]
    exact stops_after self (transaction self self.i2c.log.length ctrl x) _
      (by rw [failedWrites_transaction]; simp [h]) (stops_nil _)
  · rw [if_neg h]
    exact stops_single_fail self ctrl x msg h

theorem display_set_stops (fuel : Nat) (hf : 0 < fuel) (self : DOGM204I2C)
    (h : AlwaysReady self.i2c) (mode : Nat) :
    StopsAtFailedWrite self (display_set fuel self mode) := by
  have := checked_cmd_polls "DOGM204I2C: Write command in lcd_display_set() failed!\n"
    ((0x08 + mode) % 256) 0 fuel self hf (fun k hk => absurd hk (Nat.not_lt_zero k)) (h _)
  rw [← transaction_eq] at this
  unfold display_set
  rw [this]
  exact stops_checked self _ _ _

theorem set_pos_stops (fuel : Nat) (hf : 0 < fuel) (self : DOGM204I2C)
    (h : AlwaysReady self.i2c) (pos : Nat) :
    StopsAtFailedWrite self (set_pos fuel self pos) := by
  have := checked_cmd_polls "DOGM204I2C: Write command in lcd_set_pos() failed!\n"
    ((LCD_HOME + pos) % 256) 0 fuel self hf (fun k hk => absurd hk (Nat.not_lt_zero k)) (h _)
  rw [← transaction_eq] at this
  unfold set_pos
  rw [this]
  exact stops_checked self _ _ _

theorem stops_checked_bool (self : DOGM204I2C) (ctrl x : Nat) (msg : String) :
    StopsAtFailedWrite self
      (if (!decide (self.i2c.ack (self.i2c.log.length + 2) = 0)) = true then
        some (Status.fatal msg, logged self (transaction self self.i2c.log.length ctrl x))
      else some (Status.ok, logged self (transaction self self.i2c.log.length ctrl x))) := by
  have := stops_checked self ctrl x msg
  by_cases h : self.i2c.ack (self.i2c.log.length + 2) = 0
  · simpa [h] using this
  · simpa [h] using this

theorem write_char_stops (fuel : Nat) (hf : 0 < fuel) (self : DOGM204I2C)
    (h : AlwaysReady self.i2c) (line pos ch : Nat) :
    StopsAtFailedWrite self (write_char fuel self line pos ch) := by
  unfold write_char
  rw [lcd_write_cmd_ready _ fuel self hf (h _)]
  by_cases h1 : self.i2c.ack (self.i2c.log.length + 2) = 0
  · simp only [h1, decide_True, Bool.not_true, Bool.false_eq_true, if_false]
    rw [lcd_write_data_ready _ fuel _ hf (alwaysReady_logged self _ h _)]
    refine stops_after self (transaction self self.i2c.log.length 0x80 (lcdpos line pos)) _
      (by rw [failedWrites_transaction]; simp [h1]) ?_
    exact stops_checked_bool (logged self (transaction self self.i2c.log.length 0x80
      (lcdpos line pos))) 0x40 ch _
  · simp only [h1, decide_False, Bool.not_false, if_true]
    exact stops_single_fail self _ _ _ h1

theorem write_stops (fuel : Nat) (hf : 0 < fuel) (s : List Nat) :
    ∀ self : DOGM204I2C, AlwaysReady self.i2c → StopsAtFailedWrite self (write fuel self s) := by
  induction s with
  | nil => intro self _; rw [write]; exact stops_nil self
  | cons c s ih =>
    intro self h
    by_cases hc : c = 0
    · rw [write, if_pos hc]; exact stops_nil self
    · rw [write_cons_step fuel hf self h c s hc]
      by_cases h1 : self.i2c.ack (self.i2c.log.length + 2) = 0
      · rw [if_pos h1]
        exact stops_after self (transaction self self.i2c.log.length 0x40 c) _
          (by rw [failedWrites_transaction]; simp [h1])
          (ih _ (alwaysReady_logged self _ h))
      · rw [if_neg h1]
        exact stops_single_fail self _ _ _ h1

theorem polled_append (adr : Nat) (a b : List Xfer) (ha : Polled adr a) (hb : Polled adr b) :
    Polled adr (a ++ b) := by
  induction ha with
  | nil => simpa using hb
  | poll c l _ ih => exact Polled.poll c _ ih
  | frame c x y l hc _ ih => exact Polled.frame c x y _ hc ih

theorem reaches_refl (self : DOGM204I2C) : Reaches self self :=
  ⟨[], by simp, Polled.nil⟩

theorem reaches_trans (a b c : DOGM204I2C) (hab : Reaches a b) (hbc : Reaches b c) :
    Reaches a c := by
  obtain ⟨n1, rfl, h1⟩ := hab
  obtain ⟨n2, rfl, h2⟩ := hbc
  exact ⟨n1 ++ n2, by simp, polled_append _ _ _ h1 h2⟩

/-- A wait loop that ends, followed by the write of a frame. -/
theorem write_reaches (ctrl x : Nat) : ∀ (fuel : Nat) (self : DOGM204I2C) (r : Bool)
    (s : DOGM204I2C),
    (match busy_wait fuel self with
      | none => none
      | some s0 => some (lcd_i2c_write s0 ctrl x)) = some (r, s) → Reaches self s := by
  intro fuel
  induction fuel with
  | zero => intro self r s h; simp [busy_wait] at h
  | succ f ih =>
    intro self r s h
    rw [busy_wait] at h
    simp only [lcd_i2c_read_eq] at h
    by_cases hb : self.i2c.rx (self.i2c.log.length + 1) % 256 &&& LCD_BUSY = 0
    · rw [if_neg (not_not.mpr hb)] at h
      simp only [lcd_i2c_write_eq, Option.some.injEq, Prod.mk.injEq] at h
      refine ⟨_, ?_, Polled.frame _ ctrl x [] hb Polled.nil⟩
      rw [← h.2]
      simp
    · rw [if_pos hb] at h
      obtain ⟨new, rfl, hp⟩ := ih _ r s h
      exact ⟨Xfer.write self._baseAdr [LCD_STATUS] ::
        Xfer.read (self._baseAdr + 1) [self.i2c.rx (self.i2c.log.length + 1) % 256] :: new,
        by rw [logged_logged]; rfl, Polled.poll _ _ hp⟩

theorem cmd_reaches (fuel : Nat) (self : DOGM204I2C) (x : Nat) (r : Bool) (s : DOGM204I2C)
    (h : lcd_write_cmd fuel self x = some (r, s)) : Reaches self s :=
  write_reaches 0x80 x fuel self r s h

theorem data_reaches (fuel : Nat) (self : DOGM204I2C) (x : Nat) (r : Bool) (s : DOGM204I2C)
    (h : lcd_write_data fuel self x = some (r, s)) : Reaches self s :=
  write_reaches 0x40 x fuel self r s h

theorem cmdSeq_reaches (fuel : Nat) (xs : List Nat) : ∀ (self s : DOGM204I2C),
    cmdSeq fuel self xs = some s → Reaches self s := by
  induction xs with
  | nil =>
    intro self s h
    simp only [cmdSeq, Option.some.injEq] at h
    exact h ▸ reaches_refl self
  | cons x xs ih =>
    intro self s h
    rw [cmdSeq] at h
    cases hc : lcd_write_cmd fuel self x with
    | none => simp [hc, andThen] at h
    | some p =>
      rw [hc] at h
      exact reaches_trans _ _ _ (cmd_reaches fuel self x p.1 p.2 hc) (ih _ _ h)

theorem checked_cmd_reaches (msg : String) (fuel : Nat) (self : DOGM204I2C) (x : Nat)
    (st : Status) (s : DOGM204I2C)
    (h : (match lcd_write_cmd fuel self x with
      | none => none
      | some (r, s) => if !r then some (Status.fatal msg, s) else some (Status.ok, s)) =
      some (st, s)) : Reaches self s := by
  cases hc : lcd_write_cmd fuel self x with
  | none => simp [hc] at h
  | some p =>
    obtain ⟨r, s1⟩ := p
    rw [hc] at h
    have hs : s1 = s := by
      cases r <;> simp at h <;> exact h.2
    exact hs ▸ cmd_reaches fuel self x r s1 hc

theorem write_char_reaches (fuel : Nat) (self : DOGM204I2C) (line pos ch : Nat)
    (st : Status) (s : DOGM204I2C) (h : write_char fuel self line pos ch = some (st, s)) :
    Reaches self s := by
  unfold write_char at h
  cases hc : lcd_write_cmd fuel self (lcdpos line pos) with
  | none => simp [hc] at h
  | some p =>
    obtain ⟨r, s1⟩ := p
    rw [hc] at h
    have h1 := cmd_reaches fuel self _ r s1 hc
    cases r with
    | false =>
      simp at h
      exact h.2 ▸ h1
    | true =>
      simp only [Bool.not_true, Bool.false_eq_true, if_false] at h
      cases hd : lcd_write_data fuel s1 ch with
      | none => simp [hd] at h
      | some q =>
        obtain ⟨r2, s2⟩ := q
        rw [hd] at h
        have hs : s2 = s := by
          cases r2 <;> simp at h <;> exact h.2
        exact hs ▸ reaches_trans _ _ _ h1 (data_reaches fuel s1 ch r2 s2 hd)

theorem write_string_reaches (fuel : Nat) (str : List Nat) : ∀ (self : DOGM204I2C)
    (st : Status) (s : DOGM204I2C), write fuel self str = some (st, s) → Reaches self s := by
  induction str with
  | nil =>
    intro self st s h
    simp only [write, Option.some.injEq, Prod.mk.injEq] at h
    exact h.2 ▸ reaches_refl self
  | cons c str ih =>
    intro self st s h
    rw [write] at h
    by_cases hc : c = 0
    · rw [if_pos hc] at h
      simp only [Option.some.injEq, Prod.mk.injEq] at h
      exact h.2 ▸ reaches_refl self
    · rw [if_neg hc] at h
      cases hd : lcd_write_data fuel self c with
      | none => simp [hd] at h
      | some q =>
        obtain ⟨r, s1⟩ := q
        rw [hd] at h
        have h1 := data_reaches fuel self c r s1 hd
        cases r with
        | false =>
          simp at h
          exact h.2 ▸ h1
        | true =>
          simp only [Bool.not_true, Bool.false_eq_true, if_false] at h
          exact reaches_trans _ _ _ h1 (ih _ _ _ h)

theorem run_reaches (fuel : Nat) (self : DOGM204I2C) (op : Op) (st : Status)
    (s : DOGM204I2C) (h : op.run fuel self = some (st, s)) : Reaches self s := by
  cases op with
  | init =>
    simp only [Op.run, Option.map_eq_some', Prod.mk.injEq] at h
    obtain ⟨a, ha, -, rfl⟩ := h
    exact cmdSeq_reaches fuel _ self a ((init_eq_cmdSeq fuel self).symm.trans ha)
  | cls =>
    simp only [Op.run, Option.map_eq_some', Prod.mk.injEq] at h
    obtain ⟨a, ha, -, rfl⟩ := h
    exact cmdSeq_reaches fuel _ self a ((cls_eq_cmdSeq fuel self).symm.trans ha)
  | display_set mode => exact checked_cmd_reaches _ fuel self _ st s h
  | set_pos pos => exact checked_cmd_reaches _ fuel self _ st s h
  | write_char line pos ch => exact write_char_reaches fuel self line pos ch st s h
  | write str => exact write_string_reaches fuel str self st s h

theorem runOps_reaches (fuel : Nat) (ops : List Op) : ∀ (self : DOGM204I2C) (st : Status)
    (s : DOGM204I2C), runOps fuel self ops = some (st, s) → Reaches self s := by
  induction ops with
  | nil =>
    intro self st s h
    simp only [runOps, Option.some.injEq, Prod.mk.injEq] at h
    exact h.2 ▸ reaches_refl self
  | cons op ops ih =>
    intro self st s h
    rw [runOps] at h
    cases hr : op.run fuel self with
    | none => simp [hr] at h
    | some p =>
      obtain ⟨st1, s1⟩ := p
      rw [hr] at h
      have h1 := run_reaches fuel self op st1 s1 hr
      cases st1 with
      | ok => exact reaches_trans _ _ _ h1 (ih _ _ _ h)
      | fatal msg =>
        simp only [Option.some.injEq, Prod.mk.injEq] at h
        exact h.2 ▸ h1

theorem polled_gated (adr : Nat) (l : List Xfer) (h : Polled adr l) : Gated l := by
  induction h with
  | nil =>
    intro pre post a c d h
    simp at h
  | poll b l _ ih =>
    intro pre post a c d h
    cases pre with
    | nil => simp at h
    | cons p0 pre =>
      cases pre with
      | nil => simp at h
      | cons p1 pre =>
        simp only [List.cons_append, List.cons.injEq] at h
        obtain ⟨pre', a0, a1, b', hpre, hb⟩ := ih pre post a c d h.2.2
        exact ⟨p0 :: p1 :: pre', a0, a1, b', by simp [hpre], hb⟩
  | frame b x y l hb _ ih =>
    intro pre post a c d h
    cases pre with
    | nil => simp at h
    | cons p0 pre =>
      cases pre with
      | nil => simp at h
      | cons p1 pre =>
        cases pre with
        | nil =>
          simp only [List.cons_append, List.nil_append, List.cons.injEq] at h
          exact ⟨[], adr, adr + 1, b, by simp [← h.1, ← h.2.1], hb⟩
        | cons p2 pre =>
          simp only [List.cons_append, List.cons.injEq] at h
          obtain ⟨pre', a0, a1, b', hpre, hb'⟩ := ih pre post a c d h.2.2.2
          exact ⟨p0 :: p1 :: p2 :: pre', a0, a1, b', by simp [hpre], hb'⟩

theorem polled_targets (adr : Nat) (l : List Xfer) (h : Polled adr l) : TargetsDevice adr l := by
  induction h with
  | nil => intro x hx; simp at hx
  | poll b l _ ih =>
    intro x hx
    simp only [List.mem_cons] at hx
    rcases hx with rfl | rfl | hx
    · simp
    · simp
    · exact ih x hx
  | frame b c d l _ _ ih =>
    intro x hx
    simp only [List.mem_cons] at hx
    rcases hx with rfl | rfl | rfl | hx
    · simp
    · simp
    · simp
    · exact ih x hx

theorem run_returns (fuel : Nat) (hf : 0 < fuel) (self : DOGM204I2C)
    (h : AlwaysReady self.i2c) (op : Op) :
    ∃ st new, op.run fuel self = some (st, logged self new) := by
  cases op with
  | init => exact ⟨_, _, run_init_ready fuel hf self h⟩
  | cls => exact ⟨_, _, run_cls_ready fuel hf self h⟩
  | display_set mode =>
    obtain ⟨st, new, hr, -, -⟩ := display_set_stops fuel hf self h mode
    exact ⟨st, new, hr⟩
  | set_pos pos =>
    obtain ⟨st, new, hr, -, -⟩ := set_pos_stops fuel hf self h pos
    exact ⟨st, new, hr⟩
  | write_char line pos ch =>
    obtain ⟨st, new, hr, -, -⟩ := write_char_stops fuel hf self h line pos ch
    exact ⟨st, new, hr⟩
  | write str =>
    obtain ⟨st, new, hr, -, -⟩ := write_stops fuel hf str self h
    exact ⟨st, new, hr⟩

/-- On a display that is never busy every program comes to an end. -/
theorem runOps_returns (fuel : Nat) (hf : 0 < fuel) (ops : List Op) :
    ∀ self : DOGM204I2C, AlwaysReady self.i2c → ∃ st s, runOps fuel self ops = some (st, s) := by
  induction ops with
  | nil => intro self _; exact ⟨_, _, rfl⟩
  | cons op ops ih =>
    intro self h
    obtain ⟨st, new, hr⟩ := run_returns fuel hf self h op
    rw [runOps, hr]
    cases st with
    | ok => exact ih _ (alwaysReady_logged self new h)
    | fatal msg => exact ⟨_, _, rfl⟩

@[simp] theorem withRx_baseAdr (self : DOGM204I2C) (rx : Nat → Nat) :
    (withRx self rx)._baseAdr = self._baseAdr := rfl

@[simp] theorem withRx_rx (self : DOGM204I2C) (rx : Nat → Nat) :
    (withRx self rx).i2c.rx = rx := rfl

@[simp] theorem withRx_log (self : DOGM204I2C) (rx : Nat → Nat) :
    (withRx self rx).i2c.log = self.i2c.log := rfl

@[simp] theorem withRx_ack (self : DOGM204I2C) (rx : Nat → Nat) :
    (withRx self rx).i2c.ack = self.i2c.ack := rfl

theorem statusReads_request (self : DOGM204I2C) (rx : Nat → Nat) (n t : Nat) :
    (statusReads (withRx self rx) t n).map request = (statusReads self t n).map request := by
  induction n generalizing t with
  | zero => rfl
  | succ n ih => simp [statusReads, request, ih]

theorem statusReadCount_statusReads (self : DOGM204I2C) (n t : Nat) :
    statusReadCount (statusReads self t n) = n := by
  induction n generalizing t with
  | zero => rfl
  | succ n ih => simp [statusReads, statusReadCount, ih]

theorem statusReads_even (self : DOGM204I2C) (n : Nat) : ∀ (t k : Nat), k < n →
    (statusReads self t n)[2 * k]? = some (Xfer.write self._baseAdr [LCD_STATUS]) := by
  induction n with
  | zero => intro t k hk; omega
  | succ n ih =>
    intro t k hk
    cases k with
    | zero => simp [statusReads]
    | succ k =>
      rw [show 2 * (k + 1) = 2 * k + 1 + 1 by omega]
      simp only [statusReads, List.cons_append, List.nil_append, List.getElem?_cons_succ]
      exact ih (t + 2) k (by omega)

theorem statusReads_odd (self : DOGM204I2C) (n : Nat) : ∀ (t k : Nat), k < n →
    (statusReads self t n)[2 * k + 1]? =
      some (Xfer.read (self._baseAdr + 1) [self.i2c.rx (t + 2 * k + 1) % 256]) := by
  induction n with
  | zero => intro t k hk; omega
  | succ n ih =>
    intro t k hk
    cases k with
    | zero => simp [statusReads]
    | succ k =>
      rw [show 2 * (k + 1) + 1 = 2 * k + 1 + 1 + 1 by omega]
      simp only [statusReads, List.cons_append, List.nil_append, List.getElem?_cons_succ]
      rw [ih (t + 2) k (by omega), show t + 2 + 2 * k + 1 = t + 2 * (k + 1) + 1 by omega]

/-! ## The claims -/

/-- C1: on a display that never reports busy, and whatever the bus answers
to each write, `init()` returns after exactly eleven transactions, each a
status read followed by a command frame `[0x80, b]`, with `b` running
through 0x3A, 0x09, 0x80, 0x05, 0x1E, 0x39, 0x1B, 0x6E, 0x57, 0x7B, 0x38 in
this order; the frames it adds to the trace are these eleven command frames
and no data frame. -/
theorem init_issues_eleven_commands (fuel : Nat) (self : DOGM204I2C) (hfuel : 0 < fuel)
    (hready : AlwaysReady self.i2c) :
    ∃ s, init fuel self = some s ∧ s._baseAdr = self._baseAdr ∧
      s.i2c.log = self.i2c.log ++ transactions self self.i2c.log.length 0x80
        [0x3A, 0x09, 0x80, 0x05, 0x1E, 0x39, 0x1B, 0x6E, 0x57, 0x7B, 0x38] ∧
      frames s.i2c.log = frames self.i2c.log ++
        [[0x80, 0x3A], [0x80, 0x09], [0x80, 0x80], [0x80, 0x05], [0x80, 0x1E], [0x80, 0x39],
         [0x80, 0x1B], [0x80, 0x6E], [0x80, 0x57], [0x80, 0x7B], [0x80, 0x38]] := by
  refine ⟨_, (init_eq_cmdSeq fuel self).trans (cmdSeq_ready fuel hfuel _ self hready),
    rfl, rfl, ?_⟩
  rw [logged_log, frames_append, frames_transactions]
  rfl

/-- Witness of C1: the driver on a bus that acknowledges no write at all
still sends the eleven commands. -/
theorem init_issues_eleven_commands_witness :
    ∃ s, init 1 deafDev = some s ∧ s._baseAdr = 0x78 ∧
      s.i2c.log = transactions deafDev 0 0x80
        [0x3A, 0x09, 0x80, 0x05, 0x1E, 0x39, 0x1B, 0x6E, 0x57, 0x7B, 0x38] ∧
      frames s.i2c.log =
        [[0x80, 0x3A], [0x80, 0x09], [0x80, 0x80], [0x80, 0x05], [0x80, 0x1E], [0x80, 0x39],
         [0x80, 0x1B], [0x80, 0x6E], [0x80, 0x57], [0x80, 0x7B], [0x80, 0x38]] :=
  init_issues_eleven_commands 1 deafDev (by decide) deafBus_ready

/-- C2: when the first poll finds the display not busy, `lcd_write_cmd(x)`
makes one status read (the request byte 0x00 written to the device address,
one byte read from the address plus one) and then one two-byte write
`[0x80, x]` to the device address, and nothing else; it returns whether that
write was acknowledged. -/
theorem lcd_write_cmd_trace (fuel : Nat) (self : DOGM204I2C) (x : Nat) (hfuel : 0 < fuel)
    (hready : readyAt self.i2c (self.i2c.log.length + 1)) :
    ∃ s, lcd_write_cmd fuel self x =
        some (decide (self.i2c.ack (self.i2c.log.length + 2) = 0), s) ∧
      s._baseAdr = self._baseAdr ∧
      s.i2c.log = self.i2c.log ++
        [Xfer.write self._baseAdr [0x00],
         Xfer.read (self._baseAdr + 1) [self.i2c.rx (self.i2c.log.length + 1) % 256],
         Xfer.write self._baseAdr [0x80, x]] :=
  ⟨_, lcd_write_cmd_ready x fuel self hfuel hready, rfl, rfl⟩

/-- Witness of C2: the command 0x3A on the quiet bus. -/
theorem lcd_write_cmd_trace_witness :
    ∃ s, lcd_write_cmd 1 quietDev 0x3A = some (true, s) ∧ s._baseAdr = 0x78 ∧
      s.i2c.log =
        [Xfer.write 0x78 [0x00], Xfer.read 0x79 [0x00], Xfer.write 0x78 [0x80, 0x3A]] :=
  lcd_write_cmd_trace 1 quietDev 0x3A (by decide) (quietBus_ready _)

/-- C3: when the first poll finds the display not busy, `lcd_write_data(x)`
makes one status read and then one two-byte write `[0x40, x]`; its trace is
the trace of `lcd_write_cmd(x)` from the same state with the control byte
0x80 of the last transfer replaced by 0x40. -/
theorem lcd_write_data_trace (fuel : Nat) (self : DOGM204I2C) (x : Nat) (hfuel : 0 < fuel)
    (hready : readyAt self.i2c (self.i2c.log.length + 1)) :
    ∃ sd sc pre,
      pre = self.i2c.log ++
        [Xfer.write self._baseAdr [0x00],
         Xfer.read (self._baseAdr + 1) [self.i2c.rx (self.i2c.log.length + 1) % 256]] ∧
      lcd_write_data fuel self x =
        some (decide (self.i2c.ack (self.i2c.log.length + 2) = 0), sd) ∧
      sd.i2c.log = pre ++ [Xfer.write self._baseAdr [0x40, x]] ∧
      lcd_write_cmd fuel self x =
        some (decide (self.i2c.ack (self.i2c.log.length + 2) = 0), sc) ∧
      sc.i2c.log = pre ++ [Xfer.write self._baseAdr [0x80, x]] :=
  ⟨_, _, _, rfl, lcd_write_data_ready x fuel self hfuel hready, by simp [transaction, LCD_STATUS],
    lcd_write_cmd_ready x fuel self hfuel hready, by simp [transaction, LCD_STATUS]⟩

/-- Witness of C3: the byte 'A' as data and as a command on the quiet bus. -/
theorem lcd_write_data_trace_witness :
    ∃ sd sc pre,
      pre = [Xfer.write 0x78 [0x00], Xfer.read 0x79 [0x00]] ∧
      lcd_write_data 1 quietDev 0x41 = some (true, sd) ∧
      sd.i2c.log = pre ++ [Xfer.write 0x78 [0x40, 0x41]] ∧
      lcd_write_cmd 1 quietDev 0x41 = some (true, sc) ∧
      sc.i2c.log = pre ++ [Xfer.write 0x78 [0x80, 0x41]] :=
  lcd_write_data_trace 1 quietDev 0x41 (by decide) (quietBus_ready _)

/-- C4: on a display that is never busy, for a string `s` of `n` non-zero
bytes: if every data write is acknowledged, `write(s)` returns after the `n`
data frames `[0x40, s[0]]`, ..., `[0x40, s[n-1]]`, in order; if data write
number `k` (counted from 1) is the first that is not acknowledged, the fatal
error is raised after exactly the `k` data frames of `s[0]`, ..., `s[k-1]`,
and no frame goes out for the bytes after them. -/
theorem write_frames (fuel : Nat) (self : DOGM204I2C) (s : List Nat) (hfuel : 0 < fuel)
    (hready : AlwaysReady self.i2c) (hs : ∀ c ∈ s, c ≠ 0) :
    ((∀ j, j < s.length → self.i2c.ack (self.i2c.log.length + 3 * j + 2) = 0) →
      ∃ d, write fuel self s = some (Status.ok, d) ∧
        d.i2c.log = self.i2c.log ++ transactions self self.i2c.log.length 0x40 s ∧
        frames d.i2c.log = frames self.i2c.log ++ s.map fun c => [0x40, c]) ∧
    (∀ k, 1 ≤ k → k ≤ s.length →
      (∀ j, j < k - 1 → self.i2c.ack (self.i2c.log.length + 3 * j + 2) = 0) →
      self.i2c.ack (self.i2c.log.length + 3 * (k - 1) + 2) ≠ 0 →
      ∃ d msg, write fuel self s = some (Status.fatal msg, d) ∧
        d.i2c.log = self.i2c.log ++ transactions self self.i2c.log.length 0x40 (s.take k) ∧
        frames d.i2c.log = frames self.i2c.log ++ (s.take k).map fun c => [0x40, c]) := by
  constructor
  · intro ha
    refine ⟨_, write_all_acked fuel hfuel s self hready hs ha, rfl, ?_⟩
    rw [logged_log, frames_append, frames_transactions]
  · intro k hk1 hkn ha hn
    obtain ⟨i, rfl⟩ : ∃ i, k = i + 1 := ⟨k - 1, by omega⟩
    refine ⟨_, _, write_first_nack fuel hfuel s self i hready hs (by omega) ha hn, rfl, ?_⟩
    rw [logged_log, frames_append, frames_transactions]

/-- Witness of C4: `write("AB")` sends `[0x40, 'A']` then `[0x40, 'B']` on
the quiet bus; on the bus that refuses transfer 2, the first data write, it
stops after `[0x40, 'A']`. -/
theorem write_frames_witness :
    (∃ d, write 1 quietDev [0x41, 0x42] = some (Status.ok, d) ∧
      d.i2c.log = transactions quietDev 0 0x40 [0x41, 0x42] ∧
      frames d.i2c.log = [[0x40, 0x41], [0x40, 0x42]]) ∧
    (∃ d msg, write 1 (nackDev 2) [0x41, 0x42] = some (Status.fatal msg, d) ∧
      d.i2c.log = transactions (nackDev 2) 0 0x40 [0x41] ∧
      frames d.i2c.log = [[0x40, 0x41]]) :=
  ⟨(write_frames 1 quietDev [0x41, 0x42] (by decide) quietBus_ready (by decide)).1
      (fun _ _ => rfl),
   (write_frames 1 (nackDev 2) [0x41, 0x42] (by decide) (nackAt_ready 2) (by decide)).2
      1 (by decide) (by decide) (fun j hj => absurd hj (Nat.not_lt_zero j)) (by decide)⟩

/-- C5: on a display that is never busy, whatever the bus answers to the two
writes, `cls()` returns after a status read, the command frame
`[0x80, 0x00]`, a status read and the command frame `[0x80, 0x02]`, and
nothing else. -/
theorem cls_trace (fuel : Nat) (self : DOGM204I2C) (hfuel : 0 < fuel)
    (hready : AlwaysReady self.i2c) :
    ∃ s, cls fuel self = some s ∧ s._baseAdr = self._baseAdr ∧
      s.i2c.log = self.i2c.log ++
        [Xfer.write self._baseAdr [0x00],
         Xfer.read (self._baseAdr + 1) [self.i2c.rx (self.i2c.log.length + 1) % 256],
         Xfer.write self._baseAdr [0x80, 0x00],
         Xfer.write self._baseAdr [0x00],
         Xfer.read (self._baseAdr + 1) [self.i2c.rx (self.i2c.log.length + 4) % 256],
         Xfer.write self._baseAdr [0x80, 0x02]] ∧
      frames s.i2c.log = frames self.i2c.log ++ [[0x80, 0x00], [0x80, 0x02]] := by
  refine ⟨_, (cls_eq_cmdSeq fuel self).trans (cmdSeq_ready fuel hfuel _ self hready),
    rfl, rfl, ?_⟩
  rw [logged_log, frames_append, frames_transactions]
  rfl

/-- Witness of C5: `cls()` on the bus that acknowledges no write. -/
theorem cls_trace_witness :
    ∃ s, cls 1 deafDev = some s ∧ s._baseAdr = 0x78 ∧
      s.i2c.log =
        [Xfer.write 0x78 [0x00], Xfer.read 0x79 [0x00], Xfer.write 0x78 [0x80, 0x00],
         Xfer.write 0x78 [0x00], Xfer.read 0x79 [0x00], Xfer.write 0x78 [0x80, 0x02]] ∧
      frames s.i2c.log = [[0x80, 0x00], [0x80, 0x02]] :=
  cls_trace 1 deafDev (by decide) deafBus_ready

/-- C6, the code at `write_char(0, 0, 'A')` on the quiet bus: the position
command that goes out is `[0x80, 0x00]`, the bare address, while
`set_pos(0)` followed by `lcd_write_data('A')` sends `[0x80, 0x80]`; the two
traces differ in that frame. -/
theorem write_char_omits_home :
    (write_char 1 quietDev 0 0 0x41).map (fun r => r.2.i2c.log) =
      some [Xfer.write 0x78 [0x00], Xfer.read 0x79 [0x00], Xfer.write 0x78 [0x80, 0x00],
            Xfer.write 0x78 [0x00], Xfer.read 0x79 [0x00], Xfer.write 0x78 [0x40, 0x41]] ∧
    (set_pos_then_data 1 quietDev 0 0 0x41).map (fun s => s.i2c.log) =
      some [Xfer.write 0x78 [0x00], Xfer.read 0x79 [0x00], Xfer.write 0x78 [0x80, 0x80],
            Xfer.write 0x78 [0x00], Xfer.read 0x79 [0x00], Xfer.write 0x78 [0x40, 0x41]] ∧
    (write_char 1 quietDev 0 0 0x41).map (fun r => r.2.i2c.log) ≠
      (set_pos_then_data 1 quietDev 0 0 0x41).map (fun s => s.i2c.log) := by
  decide

/-- C7 fails: on the bus that refuses transfer 2, the position frame of
`write_char(0, 0, 'A')`, and would acknowledge everything else, the trace
ends with the refused frame and holds no data frame `[0x40, 'A']`. -/
theorem write_char_no_data_after_nack :
    (write_char 1 (nackDev 2) 0 0 0x41).map (fun r => r.2.i2c.log) =
      some [Xfer.write 0x78 [0x00], Xfer.read 0x79 [0x00], Xfer.write 0x78 [0x80, 0x00]] ∧
    ¬ ∃ r, write_char 1 (nackDev 2) 0 0 0x41 = some r ∧ [0x40, 0x41] ∈ frames r.2.i2c.log := by
  refine ⟨by decide, ?_⟩
  rintro ⟨r, hr, hmem⟩
  have hlog : (write_char 1 (nackDev 2) 0 0 0x41).map (fun r => frames r.2.i2c.log) =
      some [[0x80, 0x00]] := by decide
  rw [hr] at hlog
  simp only [Option.map_some', Option.some.injEq] at hlog
  rw [hlog] at hmem
  simp at hmem

/-- C7 as amended: when the first poll finds the display ready and the write
of the position command is not acknowledged, `write_char(line, col, ch)`
raises the fatal error of the position command at once; the trace ends with
the refused command frame, and no data frame is sent. -/
theorem write_char_position_nack (fuel : Nat) (self : DOGM204I2C) (line col ch : Nat)
    (hfuel : 0 < fuel) (hready : readyAt self.i2c (self.i2c.log.length + 1))
    (hnack : self.i2c.ack (self.i2c.log.length + 2) ≠ 0) :
    ∃ s p, write_char fuel self line col ch =
        some (Status.fatal "DOGM204I2C: Write command in lcd_write_char() failed!\n", s) ∧
      s.i2c.log = self.i2c.log ++
        [Xfer.write self._baseAdr [0x00],
         Xfer.read (self._baseAdr + 1) [self.i2c.rx (self.i2c.log.length + 1) % 256],
         Xfer.write self._baseAdr [0x80, p]] ∧
      frames s.i2c.log = frames self.i2c.log ++ [[0x80, p]] := by
  refine ⟨logged self (transaction self self.i2c.log.length 0x80 (lcdpos line col)),
    lcdpos line col, ?_, rfl, ?_⟩
  · unfold write_char
    simp only [lcd_write_cmd_ready _ fuel self hfuel hready]
    simp [hnack]
  · rw [logged_log, frames_append, frames_transaction]

/-- Witness of C7 as amended: `write_char(0, 0, 'A')` on the bus that
refuses transfer 2. -/
theorem write_char_position_nack_witness :
    ∃ s p, write_char 1 (nackDev 2) 0 0 0x41 =
        some (Status.fatal "DOGM204I2C: Write command in lcd_write_char() failed!\n", s) ∧
      s.i2c.log =
        [Xfer.write 0x78 [0x00], Xfer.read 0x79 [0x00], Xfer.write 0x78 [0x80, p]] ∧
      frames s.i2c.log = [[0x80, p]] :=
  write_char_position_nack 1 (nackDev 2) 0 0 0x41 (by decide) (nackAt_ready 2 _) (by decide)

/-- C8 fails: `display_set(0x08)` on the quiet bus sends the command byte
0x10, the sum, and not 0x08 | 0x08 = 0x08. -/
theorem display_set_adds :
    (display_set 1 quietDev 0x08).map (fun r => frames r.2.i2c.log) = some [[0x80, 0x10]] ∧
    (display_set 1 quietDev 0x08).map (fun r => frames r.2.i2c.log) ≠
      some [[0x80, 0x08 ||| 0x08]] := by
  decide

/-- C8 as amended: when the wait loop ends (the first not-busy status byte
is the one of poll `n`, within the budget), `display_set(mode)` sends exactly
one frame, the command frame with the byte `(0x08 + mode) mod 256`, and
raises the fatal error iff that write is not acknowledged; for an 8-bit
`mode` with bit 3 clear this byte is `0x08 | mode`. -/
theorem display_set_frame (fuel : Nat) (self : DOGM204I2C) (mode n : Nat) (hn : n < fuel)
    (hbusy : ∀ k, k < n → ¬ readyAt self.i2c (self.i2c.log.length + 2 * k + 1))
    (hready : readyAt self.i2c (self.i2c.log.length + 2 * n + 1)) :
    (∃ s, display_set fuel self mode =
        some (if self.i2c.ack (self.i2c.log.length + 2 * (n + 1)) = 0 then Status.ok
          else Status.fatal "DOGM204I2C: Write command in lcd_display_set() failed!\n", s) ∧
      frames s.i2c.log = frames self.i2c.log ++ [[0x80, (0x08 + mode) % 256]]) ∧
    (mode < 256 → mode &&& 0x08 = 0 → (0x08 + mode) % 256 = 0x08 ||| mode) :=
  ⟨⟨_, checked_cmd_polls _ _ n fuel self hn hbusy hready, frames_after_polls self n _ _⟩,
    add8_eq_or mode⟩

/-- Witness of C8 as amended: `display_set(LCD_DISPLAY_ON)` on the quiet bus
returns after the single frame `[0x80, 0x0C]`, and 0x0C is 0x08 | 0x04. -/
theorem display_set_frame_witness :
    (∃ s, display_set 1 quietDev 0x04 = some (Status.ok, s) ∧
      frames s.i2c.log = [[0x80, 0x0C]]) ∧
    (0x08 + 0x04) % 256 = 0x08 ||| 0x04 :=
  have h := display_set_frame 1 quietDev 0x04 0 (by decide)
    (fun k hk => absurd hk (Nat.not_lt_zero k)) (quietBus_ready _)
  ⟨h.1, h.2 (by decide) (by decide)⟩

/-- C9: when the wait loop ends (the first not-busy status byte is the one
of poll `n`, within the budget), `set_pos(pos)` sends exactly one frame, the
command frame `[0x80, (0x80 + pos) mod 256]`; for `pos = lineBase + col`
with `lineBase` one of 0x00, 0x20, 0x40, 0x60 and `col < 0x20` that byte is
`0x80 | pos`, and `0x80 + pos` does not wrap. -/
theorem set_pos_frame (fuel : Nat) (self : DOGM204I2C) (pos n : Nat) (hn : n < fuel)
    (hbusy : ∀ k, k < n → ¬ readyAt self.i2c (self.i2c.log.length + 2 * k + 1))
    (hready : readyAt self.i2c (self.i2c.log.length + 2 * n + 1)) :
    (∃ s, set_pos fuel self pos =
        some (if self.i2c.ack (self.i2c.log.length + 2 * (n + 1)) = 0 then Status.ok
          else Status.fatal "DOGM204I2C: Write command in lcd_set_pos() failed!\n", s) ∧
      frames s.i2c.log = frames self.i2c.log ++ [[0x80, (0x80 + pos) % 256]]) ∧
    (∀ lineBase col, lineBase ∈ [LCD_LINE1, LCD_LINE2, LCD_LINE3, LCD_LINE4] → col < 0x20 →
      pos = lineBase + col → (0x80 + pos) % 256 = 0x80 ||| pos ∧ 0x80 + pos < 256) := by
  refine ⟨⟨_, checked_cmd_polls _ _ n fuel self hn hbusy hready, frames_after_polls self n _ _⟩,
    ?_⟩
  intro lineBase col hl hc hp
  apply home_add_eq_or
  simp only [LCD_LINE1, LCD_LINE2, LCD_LINE3, LCD_LINE4, List.mem_cons, List.mem_singleton,
    List.mem_nil_iff, or_false] at hl
  omega

/-- Witness of C9: `set_pos(LCD_LINE2 + 3)` on the quiet bus returns after
the single frame `[0x80, 0xA3]`, and 0xA3 is 0x80 | 0x23. -/
theorem set_pos_frame_witness :
    (∃ s, set_pos 1 quietDev 0x23 = some (Status.ok, s) ∧
      frames s.i2c.log = [[0x80, 0xA3]]) ∧
    (0x80 + 0x23) % 256 = 0x80 ||| 0x23 ∧ 0x80 + 0x23 < 256 :=
  have h := set_pos_frame 1 quietDev 0x23 0 (by decide)
    (fun k hk => absurd hk (Nat.not_lt_zero k)) (quietBus_ready _)
  ⟨h.1, h.2 LCD_LINE2 3 (by decide) (by decide) (by decide)⟩

/-- C10: with a frequency of at most 400 kHz, the constructor sets the base
address 0x78 for `SA = 0` and 0x7A for `SA = 1`; for every other `SA` it
raises the fatal error and no object, hence no address, comes out. -/
theorem constructor_address (bus : I2C) (SA : Nat) (frequency : Int)
    (hfreq : frequency ≤ Frequency_400KHz) :
    (SA = 0 → DOGM204I2C.new bus SA frequency = Except.ok { _baseAdr := 0x78, i2c := bus }) ∧
    (SA = 1 → DOGM204I2C.new bus SA frequency = Except.ok { _baseAdr := 0x7A, i2c := bus }) ∧
    (SA ≠ 0 → SA ≠ 1 → DOGM204I2C.new bus SA frequency =
      Except.error "DOGM204I2C: SA is out of range, must be 0..1\n") := by
  have hf : ¬ frequency > Frequency_400KHz := not_lt.mpr hfreq
  refine ⟨?_, ?_, ?_⟩
  · rintro rfl
    simp [DOGM204I2C.new, hf, LCD_ADR]
  · rintro rfl
    simp [DOGM204I2C.new, hf, LCD_ADR]
  · intro h0 h1
    have h : SA > 1 := by omega
    simp [DOGM204I2C.new, h]

/-- Witness of C10: at 100 kHz, `SA = 0` gives 0x78, `SA = 1` gives 0x7A and
`SA = 2` is rejected. -/
theorem constructor_address_witness :
    DOGM204I2C.new quietBus 0 100000 = Except.ok { _baseAdr := 0x78, i2c := quietBus } ∧
    DOGM204I2C.new quietBus 1 100000 = Except.ok { _baseAdr := 0x7A, i2c := quietBus } ∧
    DOGM204I2C.new quietBus 2 100000 =
      Except.error "DOGM204I2C: SA is out of range, must be 0..1\n" :=
  ⟨(constructor_address quietBus 0 100000 (by decide)).1 rfl,
   (constructor_address quietBus 1 100000 (by decide)).2.1 rfl,
   (constructor_address quietBus 2 100000 (by decide)).2.2 (by decide) (by decide)⟩

/-- C11: for a device-select value of 0 or 1 and every integer frequency,
the constructor builds the object when `frequency <= 400000` and raises the
frequency error when `frequency > 400000`; it is rejected iff
`frequency > 400000`. -/
theorem constructor_frequency (bus : I2C) (SA : Nat) (frequency : Int) (hSA : SA ≤ 1) :
    (frequency ≤ 400000 → ∃ dev, DOGM204I2C.new bus SA frequency = Except.ok dev ∧
      dev.i2c = bus ∧ dev._baseAdr = 0x78 + 2 * SA) ∧
    (frequency > 400000 → DOGM204I2C.new bus SA frequency =
      Except.error "DOGM204I2C: I2C frequency out of range, must be less than 400 kHz\n") ∧
    ((∃ msg, DOGM204I2C.new bus SA frequency = Except.error msg) ↔ frequency > 400000) := by
  have hsa : ¬ SA > 1 := by omega
  have hadr : (LCD_ADR + (SA <<< 1)) % 256 = 0x78 + 2 * SA := by
    have : SA = 0 ∨ SA = 1 := by omega
    rcases this with rfl | rfl <;> rfl
  by_cases hf : frequency > 400000
  · have hnew : DOGM204I2C.new bus SA frequency =
        Except.error "DOGM204I2C: I2C frequency out of range, must be less than 400 kHz\n" := by
      simp [DOGM204I2C.new, hsa, Frequency_400KHz, hf]
    refine ⟨fun h => absurd hf (not_lt.mpr h), fun _ => hnew, ?_⟩
    exact ⟨fun _ => hf, fun _ => ⟨_, hnew⟩⟩
  · have hnew : DOGM204I2C.new bus SA frequency =
        Except.ok { _baseAdr := 0x78 + 2 * SA, i2c := bus } := by
      simp [DOGM204I2C.new, hsa, Frequency_400KHz, hf, hadr]
    refine ⟨fun _ => ⟨_, hnew, rfl, rfl⟩, fun h => absurd h hf, ?_⟩
    constructor
    · rintro ⟨msg, hmsg⟩
      rw [hnew] at hmsg
      cases hmsg
    · intro h
      exact absurd h hf

/-- Witness of C11: with `SA = 1`, 400000 Hz is accepted and 400001 Hz is
rejected. -/
theorem constructor_frequency_witness :
    (∃ dev, DOGM204I2C.new quietBus 1 400000 = Except.ok dev ∧
      dev.i2c = quietBus ∧ dev._baseAdr = 0x7A) ∧
    DOGM204I2C.new quietBus 1 400001 =
      Except.error "DOGM204I2C: I2C frequency out of range, must be less than 400 kHz\n" :=
  ⟨(constructor_frequency quietBus 1 400000 (by decide)).1 (by decide),
   (constructor_frequency quietBus 1 400001 (by decide)).2.1 (by decide)⟩

/-- C12 fails in its count of status reads: the scenario on the quiet bus
makes 16 status reads, one before each of the 16 frames, and not 17. -/
theorem demo_status_reads :
    (runOps 1 quietDev [Op.init, Op.cls, Op.set_pos 0x00, Op.write [0x48, 0x49]]).map
      (fun r => (statusReadCount r.2.i2c.log, (frames r.2.i2c.log).length)) = some (16, 16) ∧
    (runOps 1 quietDev [Op.init, Op.cls, Op.set_pos 0x00, Op.write [0x48, 0x49]]).map
      (fun r => (statusReadCount r.2.i2c.log, (frames r.2.i2c.log).length)) ≠ some (17, 16) := by
  decide

/-- C12 as amended: a device built with select 0 at 100000 Hz has the
address 0x78; on a bus where every poll finds the display ready and every
transfer is acknowledged, `init(); cls(); set_pos(0x00); write("HI")`
returns after exactly 16 transactions, each one status read followed by one
frame: the 11 commands of `init`, the commands 0x00 and 0x02, the command
0x80, the data bytes 'H' and 'I'.  That makes 16 frames and 16 status reads. -/
theorem demo_trace (fuel : Nat) (bus : I2C) (hfuel : 0 < fuel) (hready : AlwaysReady bus)
    (hack : ∀ t, bus.ack t = 0) :
    ∃ dev s new, DOGM204I2C.new bus 0 100000 = Except.ok dev ∧ dev._baseAdr = 0x78 ∧
      runOps fuel dev [Op.init, Op.cls, Op.set_pos 0x00, Op.write [0x48, 0x49]] =
        some (Status.ok, s) ∧
      s.i2c.log = bus.log ++ new ∧
      new = transactions dev bus.log.length 0x80
          [0x3A, 0x09, 0x80, 0x05, 0x1E, 0x39, 0x1B, 0x6E, 0x57, 0x7B, 0x38,
           0x00, 0x02, 0x80]
        ++ transactions dev (bus.log.length + 42) 0x40 [0x48, 0x49] ∧
      frames new =
        [[0x80, 0x3A], [0x80, 0x09], [0x80, 0x80], [0x80, 0x05], [0x80, 0x1E], [0x80, 0x39],
         [0x80, 0x1B], [0x80, 0x6E], [0x80, 0x57], [0x80, 0x7B], [0x80, 0x38],
         [0x80, 0x00], [0x80, 0x02], [0x80, 0x80], [0x40, 0x48], [0x40, 0x49]] ∧
      (frames new).length = 16 ∧ statusReadCount new = 16 := by
  have hdev : AlwaysReady (DOGM204I2C.mk 0x78 bus).i2c := hready
  refine ⟨⟨0x78, bus⟩, logged ⟨0x78, bus⟩ (transactions ⟨0x78, bus⟩ bus.log.length 0x80
          [0x3A, 0x09, 0x80, 0x05, 0x1E, 0x39, 0x1B, 0x6E, 0x57, 0x7B, 0x38,
           0x00, 0x02, 0x80]
        ++ transactions ⟨0x78, bus⟩ (bus.log.length + 42) 0x40 [0x48, 0x49]), _,
    by simp [DOGM204I2C.new, Frequency_400KHz, LCD_ADR], rfl, ?_, rfl, rfl, ?_, ?_, ?_⟩
  · have hlog : ∀ xs, AlwaysReady (logged (DOGM204I2C.mk 0x78 bus) xs).i2c :=
      fun xs => alwaysReady_logged _ xs hdev
    simp only [runOps]
    rw [run_init_ready fuel hfuel _ hdev]
    simp only []
    rw [run_cls_ready fuel hfuel _ (hlog _)]
    simp only [Op.run, logged_logged, transactions_logged]
    rw [set_pos_acked fuel hfuel _ _ (hlog _ _) (hack _)]
    simp only [logged_logged, transaction_logged]
    rw [write_all_acked fuel hfuel _ _ (hlog _) (by decide) (fun j _ => hack _)]
    simp [logged, transactions, transaction, List.append_assoc, LCD_HOME]
  · rw [frames_append, frames_transactions, frames_transactions]; rfl
  · rw [frames_append, frames_transactions, frames_transactions]; rfl
  · rw [statusReadCount_append, statusReadCount_transactions, statusReadCount_transactions]; rfl

/-- Witness of C12 as amended: the scenario on the quiet bus. -/
theorem demo_trace_witness :
    ∃ dev s new, DOGM204I2C.new quietBus 0 100000 = Except.ok dev ∧ dev._baseAdr = 0x78 ∧
      runOps 1 dev [Op.init, Op.cls, Op.set_pos 0x00, Op.write [0x48, 0x49]] =
        some (Status.ok, s) ∧
      s.i2c.log = new ∧
      new = transactions dev 0 0x80
          [0x3A, 0x09, 0x80, 0x05, 0x1E, 0x39, 0x1B, 0x6E, 0x57, 0x7B, 0x38,
           0x00, 0x02, 0x80]
        ++ transactions dev 42 0x40 [0x48, 0x49] ∧
      frames new =
        [[0x80, 0x3A], [0x80, 0x09], [0x80, 0x80], [0x80, 0x05], [0x80, 0x1E], [0x80, 0x39],
         [0x80, 0x1B], [0x80, 0x6E], [0x80, 0x57], [0x80, 0x7B], [0x80, 0x38],
         [0x80, 0x00], [0x80, 0x02], [0x80, 0x80], [0x40, 0x48], [0x40, 0x49]] ∧
      (frames new).length = 16 ∧ statusReadCount new = 16 :=
  demo_trace 1 quietBus (by decide) quietBus_ready (fun _ => rfl)

/-- C13: `lcd_i2c_write` makes one two-byte write and returns `false` iff
the bus call returns non-zero.  When the wait loop ends (first not-busy
status byte at poll `n`), no frame has gone out during the wait, and
`lcd_write_cmd` and `lcd_write_data` return the result of the one
`lcd_i2c_write` they make after it: `true` iff that write is acknowledged,
with exactly one frame added to the trace. -/
theorem write_result_single_attempt (fuel : Nat) (self : DOGM204I2C) (x n : Nat)
    (hn : n < fuel)
    (hbusy : ∀ k, k < n → ¬ readyAt self.i2c (self.i2c.log.length + 2 * k + 1))
    (hready : readyAt self.i2c (self.i2c.log.length + 2 * n + 1)) :
    (∀ (d : DOGM204I2C) (cmd dta : Nat),
      ((lcd_i2c_write d cmd dta).1 = false ↔ d.i2c.ack d.i2c.log.length ≠ 0) ∧
      (lcd_i2c_write d cmd dta).2.i2c.log = d.i2c.log ++ [Xfer.write d._baseAdr [cmd, dta]]) ∧
    ∃ s0, busy_wait fuel self = some s0 ∧ frames s0.i2c.log = frames self.i2c.log ∧
      lcd_write_cmd fuel self x = some (lcd_i2c_write s0 0x80 x) ∧
      lcd_write_data fuel self x = some (lcd_i2c_write s0 0x40 x) ∧
      ((lcd_i2c_write s0 0x80 x).1 = true ↔
        self.i2c.ack (self.i2c.log.length + 2 * (n + 1)) = 0) ∧
      ((lcd_i2c_write s0 0x40 x).1 = true ↔
        self.i2c.ack (self.i2c.log.length + 2 * (n + 1)) = 0) ∧
      frames (lcd_i2c_write s0 0x80 x).2.i2c.log = frames self.i2c.log ++ [[0x80, x]] ∧
      frames (lcd_i2c_write s0 0x40 x).2.i2c.log = frames self.i2c.log ++ [[0x40, x]] := by
  have hw := busy_wait_polls n fuel self hn hbusy hready
  refine ⟨fun d cmd dta => ?_, _, hw, ?_, ?_, ?_, ?_, ?_, ?_, ?_⟩
  · rw [lcd_i2c_write_eq]
    simp
  · rw [logged_log, frames_append, frames_statusReads, List.append_nil]
  · simp only [lcd_write_cmd, hw]
  · simp only [lcd_write_data, hw]
  · rw [lcd_i2c_write_eq]
    simp [length_statusReads]
  · rw [lcd_i2c_write_eq]
    simp [length_statusReads]
  · rw [lcd_i2c_write_eq]
    simp only [logged_logged, logged_baseAdr]
    exact frames_after_polls self n 0x80 x
  · rw [lcd_i2c_write_eq]
    simp only [logged_logged, logged_baseAdr]
    exact frames_after_polls self n 0x40 x

/-- Witness of C13: on the bus that refuses transfer 2 the single write of
`lcd_write_cmd(0x3A)` and of `lcd_write_data(0x3A)` is refused, the result
is `false`, and one frame went out. -/
theorem write_result_single_attempt_witness :
    ∃ s0, busy_wait 1 (nackDev 2) = some s0 ∧ frames s0.i2c.log = [] ∧
      lcd_write_cmd 1 (nackDev 2) 0x3A = some (lcd_i2c_write s0 0x80 0x3A) ∧
      lcd_write_data 1 (nackDev 2) 0x3A = some (lcd_i2c_write s0 0x40 0x3A) ∧
      ((lcd_i2c_write s0 0x80 0x3A).1 = true ↔ (nackDev 2).i2c.ack 2 = 0) ∧
      ((lcd_i2c_write s0 0x40 0x3A).1 = true ↔ (nackDev 2).i2c.ack 2 = 0) ∧
      frames (lcd_i2c_write s0 0x80 0x3A).2.i2c.log = [[0x80, 0x3A]] ∧
      frames (lcd_i2c_write s0 0x40 0x3A).2.i2c.log = [[0x40, 0x3A]] :=
  (write_result_single_attempt 1 (nackDev 2) 0x3A 0 (by decide)
    (fun k hk => absurd hk (Nat.not_lt_zero k)) (nackAt_ready 2 _)).2

/-- C14 fails: on the bus that refuses transfer 0, the request write of the
status read, and on the bus that refuses transfer 1, the read of the status
byte, `lcd_write_cmd(0x3A)` and `lcd_write_data(0x41)` go on to their frame
and return `true`. -/
theorem status_read_error_unreported :
    (nackDev 0).i2c.ack 0 ≠ 0 ∧ (nackDev 1).i2c.ack 1 ≠ 0 ∧
    (lcd_write_cmd 1 (nackDev 0) 0x3A).map (fun r => (r.1, r.2.i2c.log)) =
      some (true, [Xfer.write 0x78 [0x00], Xfer.read 0x79 [0x00], Xfer.write 0x78 [0x80, 0x3A]]) ∧
    (lcd_write_cmd 1 (nackDev 1) 0x3A).map (fun r => (r.1, r.2.i2c.log)) =
      some (true, [Xfer.write 0x78 [0x00], Xfer.read 0x79 [0x00], Xfer.write 0x78 [0x80, 0x3A]]) ∧
    (lcd_write_data 1 (nackDev 0) 0x41).map (fun r => (r.1, r.2.i2c.log)) =
      some (true, [Xfer.write 0x78 [0x00], Xfer.read 0x79 [0x00], Xfer.write 0x78 [0x40, 0x41]]) ∧
    (lcd_write_data 1 (nackDev 1) 0x41).map (fun r => (r.1, r.2.i2c.log)) =
      some (true, [Xfer.write 0x78 [0x00], Xfer.read 0x79 [0x00], Xfer.write 0x78 [0x40, 0x41]]) := by
  decide

/-- C14 as amended: the bus results of the transfers inside `lcd_i2c_read`
are dropped.  When the wait loop ends at poll `n`, the result of
`lcd_write_cmd` and `lcd_write_data` is `true` iff the final two-byte write
is acknowledged, and neither the result nor the trace changes when the bus
answers the other transfers with `ack'` instead. -/
theorem status_read_errors_dropped (fuel : Nat) (self : DOGM204I2C) (x n : Nat)
    (ack' : Nat → Int) (hn : n < fuel)
    (hbusy : ∀ k, k < n → ¬ readyAt self.i2c (self.i2c.log.length + 2 * k + 1))
    (hready : readyAt self.i2c (self.i2c.log.length + 2 * n + 1))
    (hsame : ack' (self.i2c.log.length + 2 * (n + 1)) =
      self.i2c.ack (self.i2c.log.length + 2 * (n + 1))) :
    (∃ r s s', lcd_write_cmd fuel self x = some (r, s) ∧
      lcd_write_cmd fuel (withAck self ack') x = some (r, s') ∧ s'.i2c.log = s.i2c.log ∧
      (r = true ↔ self.i2c.ack (self.i2c.log.length + 2 * (n + 1)) = 0)) ∧
    (∃ r s s', lcd_write_data fuel self x = some (r, s) ∧
      lcd_write_data fuel (withAck self ack') x = some (r, s') ∧ s'.i2c.log = s.i2c.log ∧
      (r = true ↔ self.i2c.ack (self.i2c.log.length + 2 * (n + 1)) = 0)) := by
  have hc := lcd_write_cmd_polls x n fuel (withAck self ack') hn hbusy hready
  have hd := lcd_write_data_polls x n fuel (withAck self ack') hn hbusy hready
  simp only [withAck_ack, withAck_log, withAck_baseAdr, statusReads_withAck, hsame] at hc hd
  exact ⟨⟨_, _, _, lcd_write_cmd_polls x n fuel self hn hbusy hready, hc, rfl, by simp⟩,
    ⟨_, _, _, lcd_write_data_polls x n fuel self hn hbusy hready, hd, rfl, by simp⟩⟩

/-- Witness of C14 as amended: the quiet bus against a bus that answers
every transfer but transfer 2 with an error. -/
theorem status_read_errors_dropped_witness :
    (∃ r s s', lcd_write_cmd 1 quietDev 0x3A = some (r, s) ∧
      lcd_write_cmd 1 (withAck quietDev fun t => if t = 2 then 0 else 1) 0x3A = some (r, s') ∧
      s'.i2c.log = s.i2c.log ∧ (r = true ↔ quietDev.i2c.ack 2 = 0)) ∧
    (∃ r s s', lcd_write_data 1 quietDev 0x3A = some (r, s) ∧
      lcd_write_data 1 (withAck quietDev fun t => if t = 2 then 0 else 1) 0x3A = some (r, s') ∧
      s'.i2c.log = s.i2c.log ∧ (r = true ↔ quietDev.i2c.ack 2 = 0)) :=
  status_read_errors_dropped 1 quietDev 0x3A 0 (fun t => if t = 2 then 0 else 1) (by decide)
    (fun k hk => absurd hk (Nat.not_lt_zero k)) (quietBus_ready _) (by decide)

/-- C15 fails: `init()` on the bus that refuses every write and `init()` on
the quiet bus both return, with the same object and the same trace. -/
theorem init_failure_unobserved :
    (∀ t, deafDev.i2c.ack t ≠ 0) ∧ (∀ t, quietDev.i2c.ack t = 0) ∧
    (init 1 deafDev).isSome = true ∧
    (init 1 deafDev).map (fun s => (s._baseAdr, s.i2c.log)) =
      (init 1 quietDev).map (fun s => (s._baseAdr, s.i2c.log)) := by
  refine ⟨fun t => ?_, fun t => rfl, by decide, by decide⟩
  simp [deafDev, deafBus]

/-- C15 as amended: `init()` does not report a failed step.  On a display
that is never busy it returns normally whatever the bus answers, and a run on
a bus that answers with `ack'` leaves the same object and the same trace as
the run on the bus of `self`. -/
theorem init_ignores_failures (fuel : Nat) (self : DOGM204I2C) (ack' : Nat → Int)
    (hfuel : 0 < fuel) (hready : AlwaysReady self.i2c) :
    ∃ s s', init fuel self = some s ∧ init fuel (withAck self ack') = some s' ∧
      s._baseAdr = self._baseAdr ∧ s'._baseAdr = s._baseAdr ∧ s'.i2c.log = s.i2c.log := by
  have h' := (init_eq_cmdSeq fuel _).trans
    (cmdSeq_ready fuel hfuel _ (withAck self ack') hready)
  simp only [withAck_log, transactions_withAck] at h'
  exact ⟨_, _, (init_eq_cmdSeq fuel self).trans (cmdSeq_ready fuel hfuel _ self hready), h',
    rfl, rfl, rfl⟩

/-- Witness of C15 as amended: the quiet bus against the bus that refuses
every transfer. -/
theorem init_ignores_failures_witness :
    ∃ s s', init 1 quietDev = some s ∧ init 1 (withAck quietDev fun _ => 1) = some s' ∧
      s._baseAdr = 0x78 ∧ s'._baseAdr = s._baseAdr ∧ s'.i2c.log = s.i2c.log :=
  init_ignores_failures 1 quietDev (fun _ => 1) (by decide) quietBus_ready

/-- C16: on a display that is never busy, each of `display_set`, `set_pos`,
`write_char` and `write` ends; it ends with the fatal error iff one of the
command or data writes it made was refused by the bus, and a refused command
or data write is always the last transfer of its trace: the error is raised
at the first refused write and nothing goes over the bus after it.  (The
one-byte request writes of the status reads are not checked by the code and
are not counted here.) -/
theorem fatal_at_first_failed_write (fuel : Nat) (self : DOGM204I2C) (hfuel : 0 < fuel)
    (hready : AlwaysReady self.i2c) :
    (∀ mode, StopsAtFailedWrite self (display_set fuel self mode)) ∧
    (∀ pos, StopsAtFailedWrite self (set_pos fuel self pos)) ∧
    (∀ line pos ch, StopsAtFailedWrite self (write_char fuel self line pos ch)) ∧
    (∀ s, StopsAtFailedWrite self (write fuel self s)) :=
  ⟨display_set_stops fuel hfuel self hready, set_pos_stops fuel hfuel self hready,
    write_char_stops fuel hfuel self hready, fun s => write_stops fuel hfuel s self hready⟩

/-- Witness of C16: the four operations on the bus that refuses transfer 5,
the second frame of `write_char` and of `write`. -/
theorem fatal_at_first_failed_write_witness :
    StopsAtFailedWrite (nackDev 5) (display_set 1 (nackDev 5) 0x04) ∧
    StopsAtFailedWrite (nackDev 5) (set_pos 1 (nackDev 5) 0x20) ∧
    StopsAtFailedWrite (nackDev 5) (write_char 1 (nackDev 5) 1 2 0x41) ∧
    StopsAtFailedWrite (nackDev 5) (write 1 (nackDev 5) [0x41, 0x42, 0x43]) :=
  have h := fatal_at_first_failed_write 1 (nackDev 5) (by decide) (nackAt_ready 5)
  ⟨h.1 0x04, h.2.1 0x20, h.2.2.1 1 2 0x41, h.2.2.2 [0x41, 0x42, 0x43]⟩

/-- C17: a program of public operations that ends, normally or by the fatal
error, has put on the bus a trace in which every command or data write
stands right after a status read whose byte has bit 7 clear; so no frame
follows a busy status byte or another frame.  On a display that is never
busy every program ends. -/
theorem busy_gate (fuel : Nat) (self : DOGM204I2C) (ops : List Op) :
    (AlwaysReady self.i2c → 0 < fuel → ∃ st s, runOps fuel self ops = some (st, s)) ∧
    ∀ st s, runOps fuel self ops = some (st, s) →
      ∃ new, s.i2c.log = self.i2c.log ++ new ∧ Gated new ∧
        ∀ pre post x a c d, new = pre ++ x :: Xfer.write a [c, d] :: post →
          ∃ a1 b, x = Xfer.read a1 [b] ∧ b &&& LCD_BUSY = 0 := by
  refine ⟨fun h hf => runOps_returns fuel hf ops self h, fun st s h => ?_⟩
  obtain ⟨new, rfl, hp⟩ := runOps_reaches fuel ops self st s h
  have hg := polled_gated _ _ hp
  refine ⟨new, rfl, hg, ?_⟩
  intro pre post x a c d hnew
  obtain ⟨pre', a0, a1, b, hpre, hb⟩ := hg (pre ++ [x]) post a c d (by simp [hnew])
  refine ⟨a1, b, ?_, hb⟩
  have h2 : pre ++ [x] = (pre' ++ [Xfer.write a0 [LCD_STATUS]]) ++ [Xfer.read a1 [b]] := by
    simp [hpre]
  have := List.append_inj_right' h2 rfl
  simpa using this

/-- Witness of C17: `set_pos(0); write("A")` on a display that is busy at the
first two status reads. -/
theorem busy_gate_witness :
    ∃ s new, runOps 3 (busyDev 2) [Op.set_pos 0, Op.write [0x41]] = some (Status.ok, s) ∧
      s.i2c.log = new ∧
      new =
        [Xfer.write 0x7A [0], Xfer.read 0x7B [0x80], Xfer.write 0x7A [0], Xfer.read 0x7B [0x80],
         Xfer.write 0x7A [0], Xfer.read 0x7B [0], Xfer.write 0x7A [0x80, 0x80],
         Xfer.write 0x7A [0], Xfer.read 0x7B [0], Xfer.write 0x7A [0x40, 0x41]] ∧
      Gated new := by
  have hrun : runOps 3 (busyDev 2) [Op.set_pos 0, Op.write [0x41]] =
      some (Status.ok, logged (busyDev 2)
        [Xfer.write 0x7A [0], Xfer.read 0x7B [0x80], Xfer.write 0x7A [0], Xfer.read 0x7B [0x80],
         Xfer.write 0x7A [0], Xfer.read 0x7B [0], Xfer.write 0x7A [0x80, 0x80],
         Xfer.write 0x7A [0], Xfer.read 0x7B [0], Xfer.write 0x7A [0x40, 0x41]]) := rfl
  obtain ⟨new, hlog, hg, -⟩ :=
    (busy_gate 3 (busyDev 2) [Op.set_pos 0, Op.write [0x41]]).2 _ _ hrun
  have hnew : new =
      [Xfer.write 0x7A [0], Xfer.read 0x7B [0x80], Xfer.write 0x7A [0], Xfer.read 0x7B [0x80],
       Xfer.write 0x7A [0], Xfer.read 0x7B [0], Xfer.write 0x7A [0x80, 0x80],
       Xfer.write 0x7A [0], Xfer.read 0x7B [0], Xfer.write 0x7A [0x40, 0x41]] := by
    simpa [logged, busyDev, busyFor] using hlog.symm
  exact ⟨_, new, hrun, by rw [hnew]; rfl, hnew, hg⟩

/-- C18: when the first status byte with bit 7 clear is the one of poll `n`
(counted from 0) and the budget allows `n + 1` polls, `lcd_write_cmd` and
`lcd_write_data` return after exactly `n + 1` status reads, each the
one-byte write of 0x00 followed by a one-byte read, and then one two-byte
write.  Only bit 7 of the status bytes matters: in front of a display whose
status bytes `rx'` agree with those of `self` on bit 7 the results are the
same and the driver puts the same requests on the bus. -/
theorem busy_poll_count (fuel : Nat) (self : DOGM204I2C) (x n : Nat) (hn : n < fuel)
    (hbusy : ∀ k, k < n → ¬ readyAt self.i2c (self.i2c.log.length + 2 * k + 1))
    (hready : readyAt self.i2c (self.i2c.log.length + 2 * n + 1)) :
    (∃ sc sd polls,
      lcd_write_cmd fuel self x =
        some (decide (self.i2c.ack (self.i2c.log.length + 2 * (n + 1)) = 0), sc) ∧
      sc.i2c.log = self.i2c.log ++ polls ++ [Xfer.write self._baseAdr [0x80, x]] ∧
      lcd_write_data fuel self x =
        some (decide (self.i2c.ack (self.i2c.log.length + 2 * (n + 1)) = 0), sd) ∧
      sd.i2c.log = self.i2c.log ++ polls ++ [Xfer.write self._baseAdr [0x40, x]] ∧
      polls.length = 2 * (n + 1) ∧ statusReadCount polls = n + 1 ∧ frames polls = [] ∧
      ∀ k, k ≤ n →
        polls[2 * k]? = some (Xfer.write self._baseAdr [0x00]) ∧
        polls[2 * k + 1]? = some (Xfer.read (self._baseAdr + 1)
          [self.i2c.rx (self.i2c.log.length + 2 * k + 1) % 256])) ∧
    ∀ rx' : Nat → Nat, (∀ t, rx' t % 256 &&& LCD_BUSY = self.i2c.rx t % 256 &&& LCD_BUSY) →
      ∃ r sc sc' sd sd',
        lcd_write_cmd fuel self x = some (r, sc) ∧
        lcd_write_cmd fuel (withRx self rx') x = some (r, sc') ∧
        sc'.i2c.log.map request = sc.i2c.log.map request ∧
        lcd_write_data fuel self x = some (r, sd) ∧
        lcd_write_data fuel (withRx self rx') x = some (r, sd') ∧
        sd'.i2c.log.map request = sd.i2c.log.map request := by
  have hc := lcd_write_cmd_polls x n fuel self hn hbusy hready
  have hd := lcd_write_data_polls x n fuel self hn hbusy hready
  constructor
  · refine ⟨_, _, statusReads self self.i2c.log.length (n + 1), hc, ?_, hd, ?_,
      length_statusReads _ _ _, statusReadCount_statusReads _ _ _, frames_statusReads _ _ _, ?_⟩
    · simp
    · simp
    · intro k hk
      exact ⟨statusReads_even self (n + 1) _ k (by omega),
        statusReads_odd self (n + 1) _ k (by omega)⟩
  · intro rx' hrx
    have hb' : ∀ k, k < n →
        ¬ readyAt (withRx self rx').i2c ((withRx self rx').i2c.log.length + 2 * k + 1) := by
      intro k hk hr
      apply hbusy k hk
      unfold readyAt at hr ⊢
      rw [← hrx]
      exact hr
    have hr' : readyAt (withRx self rx').i2c ((withRx self rx').i2c.log.length + 2 * n + 1) := by
      unfold readyAt at hready ⊢
      rw [withRx_rx, hrx]
      exact hready
    have hc' := lcd_write_cmd_polls x n fuel (withRx self rx') hn hb' hr'
    have hd' := lcd_write_data_polls x n fuel (withRx self rx') hn hb' hr'
    simp only [withRx_ack, withRx_log, withRx_baseAdr] at hc' hd'
    refine ⟨_, _, _, _, _, hc, hc', ?_, hd, hd', ?_⟩
    · simp [statusReads_request, request]
    · simp [statusReads_request, request]

/-- Witness of C18: in front of the display that is busy at the first two
status reads, `lcd_write_cmd(0x3A)` makes three status reads and one write;
with the status bytes 0xFF, 0xFF, 0x7F in place of 0x80, 0x80, 0x00 the
requests are the same. -/
theorem busy_poll_count_witness :
    (∃ sc, lcd_write_cmd 3 (busyDev 2) 0x3A = some (true, sc) ∧
      sc.i2c.log =
        [Xfer.write 0x7A [0], Xfer.read 0x7B [0x80], Xfer.write 0x7A [0], Xfer.read 0x7B [0x80],
         Xfer.write 0x7A [0], Xfer.read 0x7B [0], Xfer.write 0x7A [0x80, 0x3A]]) ∧
    ∃ r sc sc' sd sd',
      lcd_write_cmd 3 (busyDev 2) 0x3A = some (r, sc) ∧
      lcd_write_cmd 3 (withRx (busyDev 2) (busyForAlt 2).rx) 0x3A = some (r, sc') ∧
      sc'.i2c.log.map request = sc.i2c.log.map request ∧
      lcd_write_data 3 (busyDev 2) 0x3A = some (r, sd) ∧
      lcd_write_data 3 (withRx (busyDev 2) (busyForAlt 2).rx) 0x3A = some (r, sd') ∧
      sd'.i2c.log.map request = sd.i2c.log.map request := by
  have h := busy_poll_count 3 (busyDev 2) 0x3A 2 (by decide)
    (fun k hk => by
      have : k = 0 ∨ k = 1 := by omega
      rcases this with rfl | rfl <;> decide)
    (by decide)
  refine ⟨⟨_, rfl, rfl⟩, h.2 (busyForAlt 2).rx ?_⟩
  intro t
  by_cases ht : t < 2 * 2 <;> simp [busyForAlt, busyDev, busyFor, ht, LCD_BUSY] <;> decide

/-- C19: a device built with `SA` 0 or 1 has the base address 0x78 or 0x7A,
and `_baseAdr + 1` is `_baseAdr | 1`.  A program of public operations that
ends, normally or by the fatal error, leaves `_baseAdr` as it was, and
every write it made went to `_baseAdr`, every read to `_baseAdr + 1`.  On a
display that is never busy every program ends. -/
theorem base_address_fixed (fuel : Nat) (bus : I2C) (SA : Nat) (frequency : Int)
    (ops : List Op) (hSA : SA ≤ 1) (hfreq : frequency ≤ 400000) :
    ∃ dev, DOGM204I2C.new bus SA frequency = Except.ok dev ∧
      dev._baseAdr = 0x78 + 2 * SA ∧ (dev._baseAdr = 0x78 ∨ dev._baseAdr = 0x7A) ∧
      dev._baseAdr + 1 = dev._baseAdr ||| 1 ∧
      (dev._baseAdr + 1 = 0x79 ∨ dev._baseAdr + 1 = 0x7B) ∧
      (AlwaysReady bus → 0 < fuel → ∃ st s, runOps fuel dev ops = some (st, s)) ∧
      ∀ st s, runOps fuel dev ops = some (st, s) →
        s._baseAdr = dev._baseAdr ∧
        ∃ new, s.i2c.log = bus.log ++ new ∧ TargetsDevice dev._baseAdr new := by
  have hnew : DOGM204I2C.new bus SA frequency =
      Except.ok { _baseAdr := 0x78 + 2 * SA, i2c := bus } := by
    have hsa : ¬ SA > 1 := by omega
    have hf : ¬ frequency > 400000 := not_lt.mpr hfreq
    have hadr : (LCD_ADR + (SA <<< 1)) % 256 = 0x78 + 2 * SA := by
      have : SA = 0 ∨ SA = 1 := by omega
      rcases this with rfl | rfl <;> rfl
    simp [DOGM204I2C.new, hsa, Frequency_400KHz, hf, hadr]
  have hcases : SA = 0 ∨ SA = 1 := by omega
  refine ⟨_, hnew, rfl, ?_, ?_, ?_, fun h hf => runOps_returns fuel hf ops _ h,
    fun st s h => ?_⟩
  · rcases hcases with rfl | rfl
    · exact Or.inl rfl
    · exact Or.inr rfl
  · rcases hcases with rfl | rfl
    · show 0x78 + 2 * 0 + 1 = (0x78 + 2 * 0) ||| 1
      decide
    · show 0x78 + 2 * 1 + 1 = (0x78 + 2 * 1) ||| 1
      decide
  · rcases hcases with rfl | rfl
    · exact Or.inl rfl
    · exact Or.inr rfl
  · obtain ⟨new, rfl, hp⟩ := runOps_reaches fuel ops _ st s h
    exact ⟨rfl, new, rfl, polled_targets _ _ hp⟩

/-- Witness of C19: `set_pos(0); write("A")` on the device built with
`SA = 1` in front of the display that is busy at the first two status
reads. -/
theorem base_address_fixed_witness :
    ∃ dev s new, DOGM204I2C.new (busyFor 2) 1 100000 = Except.ok dev ∧ dev._baseAdr = 0x7A ∧
      runOps 3 dev [Op.set_pos 0, Op.write [0x41]] = some (Status.ok, s) ∧
      s._baseAdr = 0x7A ∧ s.i2c.log = new ∧ TargetsDevice 0x7A new := by
  obtain ⟨dev, hdev, hadr, -, -, -, -, h⟩ :=
    base_address_fixed 3 (busyFor 2) 1 100000 [Op.set_pos 0, Op.write [0x41]]
      (by decide) (by decide)
  have hd : dev = busyDev 2 := by
    have : DOGM204I2C.new (busyFor 2) 1 100000 = Except.ok (busyDev 2) := rfl
    rw [this] at hdev
    cases hdev
    rfl
  subst hd
  have hrun : runOps 3 (busyDev 2) [Op.set_pos 0, Op.write [0x41]] =
      some (Status.ok, logged (busyDev 2)
        [Xfer.write 0x7A [0], Xfer.read 0x7B [0x80], Xfer.write 0x7A [0], Xfer.read 0x7B [0x80],
         Xfer.write 0x7A [0], Xfer.read 0x7B [0], Xfer.write 0x7A [0x80, 0x80],
         Xfer.write 0x7A [0], Xfer.read 0x7B [0], Xfer.write 0x7A [0x40, 0x41]]) := rfl
  obtain ⟨hs, new, hlog, ht⟩ := h _ _ hrun
  refine ⟨_, _, new, rfl, rfl, hrun, rfl, ?_, ht⟩
  simpa [busyFor] using hlog

/-- C20: for a line 0..3 and a column 0..0x1F the byte `lcdpos` that
`write_char` computes is the line base of that line (`LCD_LINE1` ..
`LCD_LINE4`) plus the column; it is `col + 0x20 * line` without wrap, below
0x80, so bit 7 is clear; and two cells with the same byte are the same cell. -/
theorem lcdpos_cells (line col : Nat) (hline : line < 4) (hcol : col < 0x20) :
    lcdpos line col = [LCD_LINE1, LCD_LINE2, LCD_LINE3, LCD_LINE4].getD line 0 + col ∧
    lcdpos line col = col + 0x20 * line ∧
    lcdpos line col < 0x80 ∧ lcdpos line col &&& 0x80 = 0 ∧
    ∀ line2 col2, line2 < 4 → col2 < 0x20 → lcdpos line2 col2 = lcdpos line col →
      line2 = line ∧ col2 = col := by
  have hval : ∀ l c, l < 4 → c < 0x20 → lcdpos l c = c + 0x20 * l := by
    intro l c hl hc
    unfold lcdpos
    omega
  have hbit : ∀ v, v < 0x80 → v &&& 0x80 = 0 := by decide
  refine ⟨?_, hval line col hline hcol, ?_, ?_, ?_⟩
  · rw [hval line col hline hcol]
    interval_cases line <;> simp [LCD_LINE1, LCD_LINE2, LCD_LINE3, LCD_LINE4] <;> omega
  · rw [hval line col hline hcol]
    omega
  · apply hbit
    rw [hval line col hline hcol]
    omega
  · intro line2 col2 hl2 hc2 heq
    rw [hval line col hline hcol, hval line2 col2 hl2 hc2] at heq
    omega

/-- Witness of C20: line 3, column 19, the last cell of the display, has the
byte 0x73. -/
theorem lcdpos_cells_witness :
    lcdpos 3 19 = 0x60 + 19 ∧ lcdpos 3 19 = 19 + 0x20 * 3 ∧
    lcdpos 3 19 < 0x80 ∧ lcdpos 3 19 &&& 0x80 = 0 ∧
    ∀ line2 col2, line2 < 4 → col2 < 0x20 → lcdpos line2 col2 = lcdpos 3 19 →
      line2 = 3 ∧ col2 = 19 :=
  lcdpos_cells 3 19 (by decide) (by decide)

end DOGM204
